import Mathlib

/-! Nuvoton NPCM serial GPIO driver (drivers/gpio/gpio-npcm-sgpio.c).

A shallow embedding of the driver.  The register window behind `gpio->base` is a
value of type `iomem`: the bytes currently readable, the way the device reacts to a
bus write, and the list of writes issued so far.  Every driver entry point takes the
controller instance and returns its C return value together with the instance after
the call.  A lookup in `npcm_sgpio_banks` past its eight entries has no defined
result in C; the embedding returns `none` there.
-/

namespace NpcmSgpio

/-! ## Constants -/

def MAX_NR_HW_SGPIO : Nat := 64

def IOXCFG1 : Nat := 0x2A
/-- GENMASK(3, 0). -/
def IOXCFG1_SFT_CLK : Nat := 0x0F
def IOXCTS : Nat := 0x28
/-- BIT(7). -/
def IOXCTS_IOXIF_EN : Nat := 0x80
/-- GENMASK(2, 1). -/
def IOXCTS_RD_MODE : Nat := 0x06
/-- BIT(2). -/
def IOXCTS_RD_MODE_PERIODIC : Nat := 0x04
def IOXCFG2 : Nat := 0x2B

/-- Modelled from the spec: the kernel's number of the invalid-argument error; the driver
returns it negated. -/
def EINVAL : Int := 22
/-- Modelled from the spec: the kernel's number of the out-of-memory error. -/
def ENOMEM : Int := 12

def GPIO_BANK (x : Nat) : Nat := x / 8
def GPIO_BIT (x : Nat) : Nat := x % 8

/-- The C expression `reg & ~mask` stored back into a `u8`. -/
def and_not_u8 (reg mask : Nat) : Nat := (reg % 256) &&& (0xFF ^^^ (mask % 256))

/-! ## Memory-mapped register window -/

/-- One bus write: its width, the offset from `base`, and the value. -/
inductive io_write where
  | w8 (addr val : Nat)
  | w16 (addr val : Nat)
deriving DecidableEq, Repr

/-- The register window: `regs a` is the byte readable at `base + a`, `respond` is the
device's reaction to a write, `writes` is the history of writes issued by the driver. -/
structure iomem where
  regs : Nat → Nat
  respond : (Nat → Nat) → io_write → (Nat → Nat)
  writes : List io_write

/-- A device that behaves as plain storage (16-bit accesses are little-endian). -/
def store_respond (regs : Nat → Nat) : io_write → (Nat → Nat)
  | .w8 a v => fun x => if x = a then v else regs x
  | .w16 a v => fun x => if x = a then v % 256 else if x = a + 1 then v / 256 else regs x

/-- The window is a store: a read returns the last value written. -/
def is_store (m : iomem) : Prop := ∀ r w, m.respond r w = store_respond r w

/-- Modelled from the spec: the kernel's 8-bit memory-mapped read, of the byte at
`base + addr`. -/
def ioread8 (m : iomem) (addr : Nat) : Nat := m.regs addr % 256

/-- Modelled from the spec: the kernel's 16-bit memory-mapped read, of the little-endian
word at `base + addr`. -/
def ioread16 (m : iomem) (addr : Nat) : Nat :=
  m.regs addr % 256 + 256 * (m.regs (addr + 1) % 256)

/-- Modelled from the spec: the kernel's 8-bit memory-mapped write; the device reacts
and the write is recorded. -/
def iowrite8 (m : iomem) (value addr : Nat) : iomem :=
  { m with
    regs := m.respond m.regs (.w8 addr (value % 256))
    writes := m.writes ++ [.w8 addr (value % 256)] }

/-- Modelled from the spec: the kernel's 16-bit memory-mapped write; the device reacts
and the write is recorded. -/
def iowrite16 (m : iomem) (value addr : Nat) : iomem :=
  { m with
    regs := m.respond m.regs (.w16 addr (value % 65536))
    writes := m.writes ++ [.w16 addr (value % 65536)] }

/-! ## Data model -/

structure npcm_clk_cfg where
  SFT_CLK : List Nat
  CLK_SEL : List Nat
  cfg_opt : Nat

/-- The controller instance (`struct npcm_sgpio`).  `pclk` is the rate that
`clk_get_rate(gpio->pclk)` reports, `ngpio` is `chip.ngpio`. -/
structure npcm_sgpio where
  base : iomem
  pclk : Nat
  irq : Int
  nin_sgpio : Nat
  nout_sgpio : Nat
  in_port : Nat
  out_port : Nat
  int_type : List Nat
  ngpio : Nat

structure npcm_sgpio_bank where
  rdata_reg : Nat
  wdata_reg : Nat
  event_config : Nat
  event_status : Nat
deriving DecidableEq, Repr

inductive npcm_sgpio_reg where
  | read_data
  | write_data
  | event_cfg
  | event_sts
deriving DecidableEq, Repr

def npcm_sgpio_banks : List npcm_sgpio_bank :=
  [ { wdata_reg := 0x00, rdata_reg := 0x08, event_config := 0x10, event_status := 0x20 },
    { wdata_reg := 0x01, rdata_reg := 0x09, event_config := 0x12, event_status := 0x21 },
    { wdata_reg := 0x02, rdata_reg := 0x0a, event_config := 0x14, event_status := 0x22 },
    { wdata_reg := 0x03, rdata_reg := 0x0b, event_config := 0x16, event_status := 0x23 },
    { wdata_reg := 0x04, rdata_reg := 0x0c, event_config := 0x18, event_status := 0x24 },
    { wdata_reg := 0x05, rdata_reg := 0x0d, event_config := 0x1a, event_status := 0x25 },
    { wdata_reg := 0x06, rdata_reg := 0x0e, event_config := 0x1c, event_status := 0x26 },
    { wdata_reg := 0x07, rdata_reg := 0x0f, event_config := 0x1e, event_status := 0x27 } ]

/-! ## Register accessor and line index mapper -/

/-- The offset from `gpio->base` of a bank register (the C function adds `gpio->base`). -/
def bank_reg (bank : npcm_sgpio_bank) : npcm_sgpio_reg → Nat
  | .read_data => bank.rdata_reg
  | .write_data => bank.wdata_reg
  | .event_cfg => bank.event_config
  | .event_sts => bank.event_status

/-- The function `to_bank`: `&npcm_sgpio_banks[GPIO_BANK(offset)]`, undefined past the table. -/
def to_bank (offset : Nat) : Option npcm_sgpio_bank :=
  npcm_sgpio_banks[GPIO_BANK offset]?

/-! ## Line I/O engine -/

def npcm_sgpio_dir_in (gpio : npcm_sgpio) (offset : Nat) : Int × npcm_sgpio :=
  (if offset < gpio.nout_sgpio then -EINVAL else 0, gpio)

def npcm_sgpio_get_direction (gpio : npcm_sgpio) (offset : Nat) : Int × npcm_sgpio :=
  if offset < gpio.nout_sgpio then (0, gpio) else (1, gpio)

/-- The function `npcm_sgpio_set`.  `val << bit` is `val * 2 ^ bit`; OR-ing it into a `u8`
keeps its low byte only. -/
def npcm_sgpio_set (gpio : npcm_sgpio) (offset : Nat) (val : Int) : Option npcm_sgpio :=
  match to_bank offset with
  | none => none
  | some bank =>
    let addr := bank_reg bank .write_data
    let reg := ioread8 gpio.base addr
    if val ≠ 0 then
      let reg := reg ||| Int.toNat ((val * 2 ^ GPIO_BIT offset) % 256)
      some { gpio with base := iowrite8 gpio.base reg addr }
    else
      let reg := and_not_u8 reg (1 <<< GPIO_BIT offset)
      some { gpio with base := iowrite8 gpio.base reg addr }

def npcm_sgpio_dir_out (gpio : npcm_sgpio) (offset : Nat) (val : Int) :
    Option (Int × npcm_sgpio) :=
  if offset < gpio.nout_sgpio then
    match npcm_sgpio_set gpio offset val with
    | none => none
    | some gpio1 => some (0, gpio1)
  else
    some (-EINVAL, gpio)

/-- The function `npcm_sgpio_get`.  In the input branch `offset >= nout_sgpio`, so the
unsigned subtraction does not wrap. -/
def npcm_sgpio_get (gpio : npcm_sgpio) (offset : Nat) : Option (Int × npcm_sgpio) :=
  let dir := (npcm_sgpio_get_direction gpio offset).1
  if dir = 0 then
    match to_bank offset with
    | none => none
    | some bank =>
      let addr := bank_reg bank .write_data
      let reg := ioread8 gpio.base addr
      let reg := (reg >>> GPIO_BIT offset) &&& 0x01
      some ((reg : Int), gpio)
  else
    let offset := offset - gpio.nout_sgpio
    match to_bank offset with
    | none => none
    | some bank =>
      let addr := bank_reg bank .read_data
      let reg := ioread8 gpio.base addr
      let reg := (reg >>> GPIO_BIT offset) &&& 0x01
      some ((reg : Int), gpio)

/-! ## Initialisation: interface enable, shift clock, port width, interrupts -/

def npcm_sgpio_setup_enable (gpio : npcm_sgpio) (enable : Bool) : npcm_sgpio :=
  let reg := ioread8 gpio.base IOXCTS
  let reg := and_not_u8 reg IOXCTS_RD_MODE
  let reg := reg ||| IOXCTS_RD_MODE_PERIODIC
  if enable then
    let reg := reg ||| IOXCTS_IOXIF_EN
    { gpio with base := iowrite8 gpio.base reg IOXCTS }
  else
    let reg := and_not_u8 reg IOXCTS_IOXIF_EN
    { gpio with base := iowrite8 gpio.base reg IOXCTS }

/-- The body of the `for (i = 0; i < clk_cfg->cfg_opt; i++)` loop of
`npcm_sgpio_setup_clk`, from index `i` with `remaining` iterations left; `val` is a `u32`.
The table reads are inside the tables for `i < cfg_opt`. -/
def npcm_sgpio_setup_clk_loop (gpio : npcm_sgpio) (clk_cfg : npcm_clk_cfg)
    (sgpio_freq apb_freq tmp : Nat) : Nat → Nat → Int × npcm_sgpio
  | 0, _ => (-EINVAL, gpio)
  | remaining + 1, i =>
    let val := (apb_freq / clk_cfg.SFT_CLK.getD i 0) % 2 ^ 32
    if sgpio_freq < val ∧ i ≠ 0 then
      (0, { gpio with base := iowrite8 gpio.base (clk_cfg.CLK_SEL.getD (i - 1) 0 ||| tmp) IOXCFG1 })
    else if i = clk_cfg.cfg_opt - 1 ∧ sgpio_freq > val then
      (0, { gpio with base := iowrite8 gpio.base (clk_cfg.CLK_SEL.getD i 0 ||| tmp) IOXCFG1 })
    else
      npcm_sgpio_setup_clk_loop gpio clk_cfg sgpio_freq apb_freq tmp remaining (i + 1)

def npcm_sgpio_setup_clk (gpio : npcm_sgpio) (clk_cfg : npcm_clk_cfg) (sgpio_freq : Nat) :
    Int × npcm_sgpio :=
  let apb_freq := gpio.pclk
  let tmp := and_not_u8 (ioread8 gpio.base IOXCFG1) IOXCFG1_SFT_CLK
  npcm_sgpio_setup_clk_loop gpio clk_cfg sgpio_freq apb_freq tmp clk_cfg.cfg_opt 0

/-- The function `npcm_sgpio_init_port`; its locals are of type `u8`. -/
def npcm_sgpio_init_port (gpio : npcm_sgpio) : Int × npcm_sgpio :=
  let in_port := (gpio.nin_sgpio / 8) % 256
  let in_port := if gpio.nin_sgpio % 8 > 0 then (in_port + 1) % 256 else in_port
  let out_port := (gpio.nout_sgpio / 8) % 256
  let out_port := if gpio.nout_sgpio % 8 > 0 then (out_port + 1) % 256 else out_port
  let gpio := { gpio with in_port := in_port, out_port := out_port }
  let set_port := (((out_port &&& 0xf) <<< 4) ||| (in_port &&& 0xf)) % 256
  let gpio := { gpio with base := iowrite8 gpio.base set_port IOXCFG2 }
  let reg := ioread8 gpio.base IOXCFG2
  if reg = set_port then (0, gpio) else (-EINVAL, gpio)

def npcm750_SFT_CLK : List Nat := [1024, 32, 8, 4, 3, 2]
def npcm750_CLK_SEL : List Nat := [0x00, 0x05, 0x07, 0x0C, 0x0D, 0x0E]
def npcm845_SFT_CLK : List Nat := [1024, 32, 16, 8, 4]
def npcm845_CLK_SEL : List Nat := [0x00, 0x05, 0x06, 0x07, 0x0C]

def npcm750_sgpio_pdata : npcm_clk_cfg :=
  { SFT_CLK := npcm750_SFT_CLK, CLK_SEL := npcm750_CLK_SEL, cfg_opt := 6 }

def npcm845_sgpio_pdata : npcm_clk_cfg :=
  { SFT_CLK := npcm845_SFT_CLK, CLK_SEL := npcm845_CLK_SEL, cfg_opt := 5 }

/-- What the platform hands to `npcm_sgpio_probe`: whether the allocation succeeds, the
register window and the error of mapping it (if any), the matched clock table, the three
`u32` properties (`none` when the read fails), the clock (its rate, or the error of
`devm_clk_get`), and the return values of `platform_get_irq` and
`devm_gpiochip_add_data`. -/
structure platform_device where
  kzalloc_ok : Bool
  mem : iomem
  ioremap_err : Option Int
  match_data : Option npcm_clk_cfg
  input_ngpios : Option Nat
  output_ngpios : Option Nat
  bus_frequency : Option Nat
  clk : Except Int Nat
  irq : Int
  gpiochip_add : Int

def npcm_sgpio_setup_irqs (gpio : npcm_sgpio) (pdev : platform_device) : Int × npcm_sgpio :=
  let rc := pdev.irq
  if rc < 0 then (rc, gpio)
  else
    let gpio := { gpio with irq := rc }
    let gpio := npcm_sgpio_setup_enable gpio false
    let gpio := npcm_sgpio_banks.foldl
      (fun (g : npcm_sgpio) bank =>
        let g := { g with base := iowrite16 g.base 0x0000 (bank_reg bank .event_cfg) }
        { g with base := iowrite8 g.base 0xff (bank_reg bank .event_sts) })
      gpio
    (0, gpio)

/-- The function `npcm_sgpio_probe`.  The result is the return value and the instance as
the call leaves it; when the allocation fails the instance is only the zeroed record over
the untouched window.  Storing a `u32` property in a `u8` field keeps its low byte. -/
def npcm_sgpio_probe (pdev : platform_device) : Int × npcm_sgpio :=
  let gpio : npcm_sgpio :=
    { base := pdev.mem, pclk := 0, irq := 0, nin_sgpio := 0, nout_sgpio := 0,
      in_port := 0, out_port := 0, int_type := List.replicate 64 0, ngpio := 0 }
  if !pdev.kzalloc_ok then (-ENOMEM, gpio)
  else
  match pdev.ioremap_err with
  | some err => (err, gpio)
  | none =>
  match pdev.match_data with
  | none => (-EINVAL, gpio)
  | some clk_cfg =>
  match pdev.input_ngpios with
  | none => (-EINVAL, gpio)
  | some nin_gpios =>
  match pdev.output_ngpios with
  | none => (-EINVAL, gpio)
  | some nout_gpios =>
  let gpio := { gpio with nin_sgpio := nin_gpios % 256 }
  let gpio := { gpio with nout_sgpio := nout_gpios % 256 }
  if gpio.nin_sgpio > MAX_NR_HW_SGPIO ∨ gpio.nout_sgpio > MAX_NR_HW_SGPIO then (-EINVAL, gpio)
  else
  match pdev.bus_frequency with
  | none => (-EINVAL, gpio)
  | some sgpio_freq =>
  match pdev.clk with
  | .error err => (err, gpio)
  | .ok rate =>
  let gpio := { gpio with pclk := rate }
  let (rc, gpio) := npcm_sgpio_setup_clk gpio clk_cfg sgpio_freq
  if rc < 0 then (-EINVAL, gpio)
  else
  let gpio := { gpio with ngpio := gpio.nin_sgpio + gpio.nout_sgpio }
  let (rc, gpio) := npcm_sgpio_init_port gpio
  if rc < 0 then (rc, gpio)
  else
  let (rc, gpio) := npcm_sgpio_setup_irqs gpio pdev
  if rc < 0 then (rc, gpio)
  else
  let rc := pdev.gpiochip_add
  if rc < 0 then (rc, gpio)
  else
  let gpio := npcm_sgpio_setup_enable gpio true
  (0, gpio)

/-! ## Interrupt chip -/

def IXOEVCFG_MASK : Nat := 0x3
def IXOEVCFG_BOTH : Nat := 0x3
def IXOEVCFG_FALLING : Nat := 0x2
def IXOEVCFG_RISING : Nat := 0x1

/-- Modelled from the spec: the trigger-type numbers of the interrupt framework, which the
driver uses by name only: edge-rising (1), edge-falling (2), edge-both (3), level-high (4),
level-low (8), and the sense mask 0xF. -/
def IRQ_TYPE_EDGE_RISING : Nat := 1
/-- Modelled from the spec: the framework's number of the edge-falling trigger type (2). -/
def IRQ_TYPE_EDGE_FALLING : Nat := 2
/-- Modelled from the spec: the framework's number of the edge-both trigger type (3). -/
def IRQ_TYPE_EDGE_BOTH : Nat := 3
/-- Modelled from the spec: the framework's number of the level-high trigger type (4). -/
def IRQ_TYPE_LEVEL_HIGH : Nat := 4
/-- Modelled from the spec: the framework's number of the level-low trigger type (8). -/
def IRQ_TYPE_LEVEL_LOW : Nat := 8
/-- Modelled from the spec: the requested type is taken `AND 0xF`. -/
def IRQ_TYPE_SENSE_MASK : Nat := 0xF

/-- The handling strategies the driver installs: `handle_bad_irq` is the registered
default, `handle_edge_irq` and `handle_level_irq` are chosen by `npcm_sgpio_set_type`. -/
inductive irq_flow_handler where
  | handle_bad_irq
  | handle_edge_irq
  | handle_level_irq
deriving DecidableEq, Repr

/-- What the driver uses of `struct irq_data`: the hardware line number
(`irqd_to_hwirq`) and the flow handler that `irq_set_handler_locked` replaces. -/
structure irq_data where
  hwirq : Nat
  handler : irq_flow_handler
deriving DecidableEq, Repr

/-- The C expression `reg & ~mask` stored back into a `u16`. -/
def and_not_u16 (reg mask : Nat) : Nat := (reg % 65536) &&& (0xFFFF ^^^ (mask % 65536))

/-- The function `irqd_to_npcm_sgpio_data`: the bank, the bit (a `u8`) and the `int`
offset `hwirq - nout_sgpio`.  `to_bank` takes the offset as an `unsigned int`, and `%` on
an `int` truncates towards zero. -/
def irqd_to_npcm_sgpio_data (gpio : npcm_sgpio) (d : irq_data) :
    Option (npcm_sgpio_bank × Nat × Int) :=
  let offset : Int := (d.hwirq : Int)
  let offset := offset - (gpio.nout_sgpio : Int)
  match to_bank (Int.toNat (offset % 2 ^ 32)) with
  | none => none
  | some bank => some (bank, Int.toNat (Int.tmod offset 8 % 256), offset)

/-- The function `npcm_sgpio_irq_set_mask`; `reg` and `type` are of type `u16`.  Reading
`int_type` past its entries has no defined result. -/
def npcm_sgpio_irq_set_mask (gpio : npcm_sgpio) (d : irq_data) (set : Bool) :
    Option npcm_sgpio :=
  match irqd_to_npcm_sgpio_data gpio d with
  | none => none
  | some (bank, bit, offset) =>
    let addr := bank_reg bank .event_cfg
    let gpio := npcm_sgpio_setup_enable gpio false
    let reg := ioread16 gpio.base addr
    let next : Option Nat :=
      if set then
        some (and_not_u16 reg (IXOEVCFG_MASK <<< (bit * 2)))
      else
        match gpio.int_type[Int.toNat offset]? with
        | none => none
        | some type => some ((reg ||| (type <<< (bit * 2))) % 65536)
    match next with
    | none => none
    | some reg =>
      let gpio := { gpio with base := iowrite16 gpio.base reg addr }
      let gpio := npcm_sgpio_setup_enable gpio true
      let addr := bank_reg bank .event_sts
      let reg := ioread8 gpio.base addr
      let reg := reg ||| (1 <<< bit)
      some { gpio with base := iowrite8 gpio.base reg addr }

def npcm_sgpio_irq_ack (gpio : npcm_sgpio) (d : irq_data) : Option npcm_sgpio :=
  match irqd_to_npcm_sgpio_data gpio d with
  | none => none
  | some (bank, bit, _) =>
    let status_addr := bank_reg bank .event_sts
    some { gpio with base := iowrite8 gpio.base (1 <<< bit) status_addr }

def npcm_sgpio_irq_mask (gpio : npcm_sgpio) (d : irq_data) : Option npcm_sgpio :=
  npcm_sgpio_irq_set_mask gpio d true

def npcm_sgpio_irq_unmask (gpio : npcm_sgpio) (d : irq_data) : Option npcm_sgpio :=
  npcm_sgpio_irq_set_mask gpio d false

/-- The function `npcm_sgpio_set_type`: the return value, the instance and the interrupt
descriptor (whose handler `irq_set_handler_locked` replaces).  Writing `int_type` past
its entries has no defined result. -/
def npcm_sgpio_set_type (gpio : npcm_sgpio) (d : irq_data) (type : Nat) :
    Option (Int × npcm_sgpio × irq_data) :=
  match irqd_to_npcm_sgpio_data gpio d with
  | none => none
  | some (bank, bit, offset) =>
    let sense := type &&& IRQ_TYPE_SENSE_MASK
    let sel : Option (Nat × irq_flow_handler) :=
      if sense = IRQ_TYPE_EDGE_BOTH then some (IXOEVCFG_BOTH, .handle_edge_irq)
      else if sense = IRQ_TYPE_EDGE_RISING then some (IXOEVCFG_RISING, .handle_edge_irq)
      else if sense = IRQ_TYPE_EDGE_FALLING then some (IXOEVCFG_FALLING, .handle_edge_irq)
      else if sense = IRQ_TYPE_LEVEL_HIGH then some (IXOEVCFG_RISING, .handle_level_irq)
      else if sense = IRQ_TYPE_LEVEL_LOW then some (IXOEVCFG_FALLING, .handle_level_irq)
      else none
    match sel with
    | none => some (-EINVAL, gpio, d)
    | some (val, handler) =>
      if Int.toNat offset < gpio.int_type.length then
        let gpio := { gpio with int_type := gpio.int_type.set (Int.toNat offset) val }
        let gpio := npcm_sgpio_setup_enable gpio false
        let addr := bank_reg bank .event_cfg
        let reg := ioread16 gpio.base addr
        let reg := (reg ||| (val <<< (bit * 2))) % 65536
        let gpio := { gpio with base := iowrite16 gpio.base reg addr }
        let gpio := npcm_sgpio_setup_enable gpio true
        some (0, gpio, { d with handler := handler })
      else none

/-- Modelled from the spec: the kernel's `for_each_set_bit(j, &reg, size)`, which visits
the set bits among the low `size` bits of `reg` in ascending bit order. -/
def for_each_set_bit (reg size : Nat) : List Nat :=
  (List.range size).filter (fun j => (reg >>> j) &&& 1 = 1)

/-- The function `npcm_sgpio_irq_handler`: the line numbers handed to
`irq_find_mapping`/`generic_handle_irq`, in the order of the calls, and the instance.
The status bytes are read as they stand; what the per-line handlers do is not part of
this pass. -/
def npcm_sgpio_irq_handler (gpio : npcm_sgpio) : List Nat × npcm_sgpio :=
  ((List.range npcm_sgpio_banks.length).foldl
    (fun (delivered : List Nat) i =>
      match npcm_sgpio_banks[i]? with
      | none => delivered
      | some bank =>
        let reg := ioread8 gpio.base (bank_reg bank .event_sts)
        delivered ++ (for_each_set_bit reg 8).map (fun j => i * 8 + gpio.nout_sgpio + j))
    [], gpio)

/-! ## Auxiliary definitions for the statements -/

/-- The byte that `npcm_sgpio_set` writes back, from the byte it read. -/
def set_byte (reg offset : Nat) (val : Int) : Nat :=
  if val ≠ 0 then reg ||| Int.toNat ((val * 2 ^ (offset % 8)) % 256)
  else and_not_u8 reg (1 <<< (offset % 8))

/-- A store holding the given bytes, with no write issued yet. -/
def store_mem (regs : Nat → Nat) : iomem :=
  { regs := regs, respond := store_respond, writes := [] }

/-- An instance over a given window with the given line counts. -/
def mk_gpio (m : iomem) (nin nout : Nat) : npcm_sgpio :=
  { base := m, pclk := 0, irq := 0, nin_sgpio := nin, nout_sgpio := nout,
    in_port := 0, out_port := 0, int_type := List.replicate 64 0, ngpio := nin + nout }

/-- Eight outputs and eight inputs over a store whose bytes all read `fill`. -/
def gpio_8_8 (fill : Nat) : npcm_sgpio := mk_gpio (store_mem fun _ => fill) 8 8

/-- The candidate frequency of table entry `i`: `R / divisor[i]`. -/
def candidate (clk_cfg : npcm_clk_cfg) (R i : Nat) : Nat := R / clk_cfg.SFT_CLK.getD i 0

/-- The instance after one write of `CLK_SEL[k] | tmp` to the clock-config byte. -/
def clk_selected (gpio : npcm_sgpio) (clk_cfg : npcm_clk_cfg) (k : Nat) : npcm_sgpio :=
  { gpio with
    base := iowrite8 gpio.base
      (clk_cfg.CLK_SEL.getD k 0 ||| and_not_u8 (ioread8 gpio.base IOXCFG1) IOXCFG1_SFT_CLK)
      IOXCFG1 }

/-- The call `npcm_sgpio_setup_clk(gpio, clk_cfg, f)` succeeds with table entry `k`: it
returns 0 and its only write is the byte `(old & 0xF0) | CLK_SEL[k]` to the clock-config
register, which keeps bits 4-7 of the old byte and, on a store, is what the register
reads afterwards. -/
def selects_entry (gpio : npcm_sgpio) (clk_cfg : npcm_clk_cfg) (f k : Nat) : Prop :=
  ∃ g, npcm_sgpio_setup_clk gpio clk_cfg f = (0, g) ∧
    g.base.writes = gpio.base.writes ++
      [io_write.w8 0x2A ((ioread8 gpio.base 0x2A &&& 0xF0) ||| clk_cfg.CLK_SEL.getD k 0)] ∧
    ((ioread8 gpio.base 0x2A &&& 0xF0) ||| clk_cfg.CLK_SEL.getD k 0) / 16 =
      ioread8 gpio.base 0x2A / 16 ∧
    (is_store gpio.base →
      ioread8 g.base 0x2A = (ioread8 gpio.base 0x2A &&& 0xF0) ||| clk_cfg.CLK_SEL.getD k 0)

/-- The instance of `gpio_8_8 0` with a reference clock of rate `R`. -/
def gpio_clk (R : Nat) : npcm_sgpio := { gpio_8_8 0 with pclk := R }

/-- A platform device for `npcm_sgpio_probe` over a zeroed store: npcm750 table, a
25 MHz reference clock, bus frequency 50 kHz, every collaborator call succeeding, and the
given line-count properties. -/
def pdev_npcm750 (nin_gpios nout_gpios : Nat) : platform_device :=
  { kzalloc_ok := true, mem := store_mem fun _ => 0, ioremap_err := none,
    match_data := some npcm750_sgpio_pdata, input_ngpios := some nin_gpios,
    output_ngpios := some nout_gpios, bus_frequency := some 50000, clk := .ok 25000000,
    irq := 5, gpiochip_add := 0 }

/-- The byte `npcm_sgpio_setup_enable` writes to the control register, from the byte read. -/
def enable_byte (reg : Nat) (enable : Bool) : Nat :=
  if enable then (and_not_u8 reg IOXCTS_RD_MODE ||| IOXCTS_RD_MODE_PERIODIC) ||| IOXCTS_IOXIF_EN
  else and_not_u8 (and_not_u8 reg IOXCTS_RD_MODE ||| IOXCTS_RD_MODE_PERIODIC) IOXCTS_IOXIF_EN

/-- The 16-bit event-config word of bank `b`, at `base + 0x10 + 2*b`. -/
def evcfg_word (m : iomem) (b : Nat) : Nat := ioread16 m (0x10 + 2 * b)

/-- The 2-bit slot of line `k` of a bank (bits `2k` and `2k+1`) in an event-config word. -/
def evcfg_slot (word k : Nat) : Nat := word / 2 ^ (2 * k) % 4

/-- The interrupt descriptor of hardware line `l`, with the registered default handler. -/
def irqd (l : Nat) : irq_data := { hwirq := l, handler := .handle_bad_irq }

/-- The read-modify-write of the event-config word of bank `b` between an interface
disable and an interface enable, as `npcm_sgpio_irq_set_mask` and `npcm_sgpio_set_type`
issue it; `f` is the change made to the word read. -/
def evcfg_rmw (m : iomem) (b : Nat) (f : Nat → Nat) : iomem :=
  let m1 := iowrite8 m (enable_byte (ioread8 m 0x28) false) 0x28
  let m2 := iowrite16 m1 (f (ioread16 m1 (0x10 + 2 * b))) (0x10 + 2 * b)
  iowrite8 m2 (enable_byte (ioread8 m2 0x28) true) 0x28

/-- The read-modify-write of the event-status byte of bank `b` that ends
`npcm_sgpio_irq_set_mask`. -/
def status_rmw (m : iomem) (b bit : Nat) : iomem :=
  iowrite8 m (ioread8 m (0x20 + b) ||| (1 <<< bit)) (0x20 + b)

/-- The trigger types `npcm_sgpio_set_type` accepts, as the masked request `s = t AND 0xF`:
edge-rising (1), edge-falling (2), edge-both (3), level-high (4), level-low (8). -/
def supported_sense (s : Nat) : Bool := s = 1 || s = 2 || s = 3 || s = 4 || s = 8

/-- The stored 2-bit trigger code of a supported sense: 0b01 for rising and level-high,
0b10 for falling and level-low, 0b11 for both edges. -/
def trigger_code (s : Nat) : Nat :=
  if s = 1 ∨ s = 4 then 1 else if s = 2 ∨ s = 8 then 2 else 3

/-- The handling strategy of a supported sense: level for level-high and level-low, edge
for the three edge types. -/
def trigger_handler (s : Nat) : irq_flow_handler :=
  if s = 4 ∨ s = 8 then .handle_level_irq else .handle_edge_irq

/-- One call of the interrupt framework into the chip, on hardware line `l`. -/
inductive irq_call where
  | set_type (l t : Nat)
  | mask (l : Nat)
  | unmask (l : Nat)
  | ack (l : Nat)
deriving DecidableEq, Repr

/-- The hardware line a call is made on. -/
def irq_call.line : irq_call → Nat
  | .set_type l _ => l
  | .mask l => l
  | .unmask l => l
  | .ack l => l

/-- The instance after one call (the return value of set-type is dropped). -/
def do_call (gpio : npcm_sgpio) : irq_call → Option npcm_sgpio
  | .set_type l t => (npcm_sgpio_set_type gpio (irqd l) t).map (fun r => r.2.1)
  | .mask l => npcm_sgpio_irq_mask gpio (irqd l)
  | .unmask l => npcm_sgpio_irq_unmask gpio (irqd l)
  | .ack l => npcm_sgpio_irq_ack gpio (irqd l)

/-- The instance after a sequence of calls. -/
def run_calls (gpio : npcm_sgpio) : List irq_call → Option npcm_sgpio
  | [] => some gpio
  | c :: cs =>
    match do_call gpio c with
    | none => none
    | some g => run_calls g cs

/-- An initial state: the window is a store, the line counts passed the check of the
probe, and the 64 stored trigger types are zero. -/
def initial_state (gpio : npcm_sgpio) : Prop :=
  is_store gpio.base ∧ gpio.nin_sgpio ≤ 64 ∧ gpio.nout_sgpio ≤ 64 ∧
    gpio.int_type = List.replicate 64 0

/-- The call is made on an input line, `nout <= l < nout + nin`. -/
def on_input_line (gpio : npcm_sgpio) (c : irq_call) : Prop :=
  gpio.nout_sgpio ≤ c.line ∧ c.line < gpio.nout_sgpio + gpio.nin_sgpio

/-- A state reachable from an initial state by set-type, mask, unmask and ack calls on
input lines. -/
def reachable (gpio : npcm_sgpio) : Prop :=
  ∃ g0 calls, initial_state g0 ∧ (∀ c ∈ calls, on_input_line g0 c) ∧
    run_calls g0 calls = some gpio

/-- What holds in every reachable state: a store, checked line counts, 64 stored types,
each a 2-bit code. -/
def irq_inv (gpio : npcm_sgpio) : Prop :=
  is_store gpio.base ∧ gpio.nin_sgpio ≤ 64 ∧ gpio.nout_sgpio ≤ 64 ∧
    gpio.int_type.length = 64 ∧ ∀ x ∈ gpio.int_type, x ≤ 3

/-- Modelled from the spec: a device whose event-status bytes (`base + 0x20..0x27`) are
write-1-to-clear, a written 1 clearing the flag and a written 0 leaving it, and whose
other registers are plain storage. -/
def w1c_respond (regs : Nat → Nat) : io_write → (Nat → Nat)
  | .w8 a v =>
    if 0x20 ≤ a ∧ a < 0x28 then fun x => if x = a then and_not_u8 (regs x) v else regs x
    else store_respond regs (.w8 a v)
  | .w16 a v => store_respond regs (.w16 a v)

/-- Eight outputs and eight inputs over a write-1-to-clear device whose event-status
byte of bank 0 reads `status` and whose other registers read 0. -/
def gpio_w1c (status : Nat) : npcm_sgpio :=
  mk_gpio { regs := fun a => if a = 0x20 then status else 0, respond := w1c_respond,
            writes := [] } 8 8

/-- The status bit of input-relative position `p` is set: bit `p % 8` of the
event-status byte at `base + 0x20 + p / 8`. -/
def pending (m : iomem) (p : Nat) : Bool := ioread8 m (0x20 + p / 8) / 2 ^ (p % 8) % 2 = 1

/-- Eight outputs and eight inputs over a store with the status bits of input-relative
positions 3, 20 and 50 set and every other register reading 0. -/
def gpio_pending_3_20_50 : npcm_sgpio :=
  mk_gpio (store_mem fun a =>
    if a = 0x20 then 0x08 else if a = 0x22 then 0x10 else if a = 0x26 then 0x04 else 0) 8 8

/-- Eight outputs and sixteen inputs (hardware lines 8..23) over a zeroed store. -/
def gpio_16_8 : npcm_sgpio := mk_gpio (store_mem fun _ => 0) 16 8

/-- Four set-type calls: rising on line 8, falling on line 10, rising on line 11 (bank 0,
bits 0, 2, 3) and both edges on line 20 (bank 1, bit 4). -/
def calls_four_types : List irq_call :=
  [.set_type 8 1, .set_type 10 2, .set_type 11 1, .set_type 20 3]

/-- The state `gpio_16_8` is in after `calls_four_types`. -/
def gpio_after_four_types : npcm_sgpio :=
  (run_calls gpio_16_8 calls_four_types).getD gpio_16_8

/-! ## Auxiliary lemmas -/

theorem to_bank_lt (o : Nat) (h : o < 64) :
    to_bank o = some { wdata_reg := o / 8, rdata_reg := 0x08 + o / 8,
                       event_config := 0x10 + 2 * (o / 8), event_status := 0x20 + o / 8 } := by
  have hk : o / 8 < 8 := by omega
  unfold to_bank GPIO_BANK
  generalize o / 8 = k at hk ⊢
  interval_cases k <;> rfl

theorem to_bank_ge (o : Nat) (h : 64 ≤ o) : to_bank o = none := by
  unfold to_bank GPIO_BANK
  have : 8 ≤ o / 8 := by omega
  simp [npcm_sgpio_banks]
  omega

theorem set_byte_mod (reg o : Nat) (val : Int) :
    set_byte reg o val = set_byte reg (o % 8) val := by
  simp [set_byte, Nat.mod_mod]

set_option maxRecDepth 100000 in
theorem byte_set_get : ∀ r : Fin 256, ∀ b : Fin 8,
    ((set_byte r.val b.val 1 % 256) >>> b.val) &&& 1 = 1 := by decide

set_option maxRecDepth 100000 in
theorem byte_clr_get : ∀ r : Fin 256, ∀ b : Fin 8,
    ((set_byte r.val b.val 0 % 256) >>> b.val) &&& 1 = 0 := by decide

theorem npcm_sgpio_set_lt (gpio : npcm_sgpio) (o : Nat) (val : Int) (h : o < 64) :
    npcm_sgpio_set gpio o val =
      some { gpio with
        base := iowrite8 gpio.base (set_byte (ioread8 gpio.base (o / 8)) o val) (o / 8) } := by
  simp only [npcm_sgpio_set, to_bank_lt o h, bank_reg, GPIO_BIT, set_byte]
  split <;> rfl

theorem npcm_sgpio_get_out (gpio : npcm_sgpio) (o : Nat) (h : o < 64)
    (ho : o < gpio.nout_sgpio) :
    npcm_sgpio_get gpio o =
      some ((((ioread8 gpio.base (o / 8) >>> (o % 8)) &&& 1 : Nat) : Int), gpio) := by
  simp [npcm_sgpio_get, npcm_sgpio_get_direction, ho, to_bank_lt o h, bank_reg, GPIO_BIT]

theorem npcm_sgpio_get_in (gpio : npcm_sgpio) (o : Nat) (h : o - gpio.nout_sgpio < 64)
    (ho : gpio.nout_sgpio ≤ o) :
    npcm_sgpio_get gpio o =
      some ((((ioread8 gpio.base (0x08 + (o - gpio.nout_sgpio) / 8) >>>
                ((o - gpio.nout_sgpio) % 8)) &&& 1 : Nat) : Int), gpio) := by
  have : ¬ o < gpio.nout_sgpio := by omega
  simp [npcm_sgpio_get, npcm_sgpio_get_direction, this, to_bank_lt _ h, bank_reg, GPIO_BIT]

theorem ioread8_iowrite8_store (m : iomem) (hs : is_store m) (v a : Nat) :
    ioread8 (iowrite8 m v a) a = v % 256 := by
  simp [ioread8, iowrite8, hs _ _, store_respond]

theorem shift_and_one (x k : Nat) : (x >>> k) &&& 1 = x / 2 ^ k % 2 := by
  rw [Nat.shiftRight_eq_div_pow, Nat.and_one_is_mod]

/-! ## Line I/O engine -/

/-- C1: on a window that behaves as a store, for `nout <= 64`, an output offset
`o < nout` and `v` in {0, 1}, `npcm_sgpio_set(o, v)` returns and a following
`npcm_sgpio_get(o)` returns `v`. -/
theorem set_get_round_trip (gpio : npcm_sgpio) (o : Nat) (v : Int)
    (hstore : is_store gpio.base) (hn : gpio.nout_sgpio ≤ 64) (ho : o < gpio.nout_sgpio)
    (hv : v = 0 ∨ v = 1) :
    ∃ g1, npcm_sgpio_set gpio o v = some g1 ∧ ∃ g2, npcm_sgpio_get g1 o = some (v, g2) := by
  have h64 : o < 64 := by omega
  have hr : ioread8 gpio.base (o / 8) < 256 := Nat.mod_lt _ (by decide)
  have hb : o % 8 < 8 := Nat.mod_lt _ (by decide)
  refine ⟨_, npcm_sgpio_set_lt gpio o v h64, ?_⟩
  rw [npcm_sgpio_get_out _ o h64 (by exact ho)]
  refine ⟨_, congrArg some (Prod.ext ?_ rfl)⟩
  show ((_ : Nat) : Int) = v
  rw [ioread8_iowrite8_store _ hstore, set_byte_mod]
  rcases hv with rfl | rfl
  · exact congrArg Int.ofNat (byte_clr_get ⟨_, hr⟩ ⟨_, hb⟩)
  · exact congrArg Int.ofNat (byte_set_get ⟨_, hr⟩ ⟨_, hb⟩)

/-- Witness of C1: eight outputs over a zeroed store, line 3 set to 1. -/
theorem set_get_round_trip_witness :
    ∃ g1, npcm_sgpio_set (gpio_8_8 0) 3 1 = some g1 ∧
      ∃ g2, npcm_sgpio_get g1 3 = some (1, g2) :=
  set_get_round_trip (gpio_8_8 0) 3 1 (fun _ _ => rfl)
    (by decide) (by decide) (Or.inr rfl)

/-- C2 (the code at the failing input): with all registers zero, `npcm_sgpio_set(0, 2)`
writes the byte 0x02 to the write-data register of bank 0: bit 0, the bit of line 0,
stays 0 although `val` is non-zero, and bit 1, the bit of line 1, goes from 0 to 1. -/
theorem set_nonboolean_val_shifts_value :
    (npcm_sgpio_set (gpio_8_8 0) 0 2).map
        (fun g => (g.base.writes, ioread8 g.base 0 / 2 ^ 0 % 2, ioread8 g.base 0 / 2 ^ 1 % 2)) =
      some ([io_write.w8 0 0x02], 0, 1) ∧
    ioread8 (gpio_8_8 0).base 0 / 2 ^ 1 % 2 = 0 := by
  decide

/-- C3 (counterexample): with 8 outputs, 8 inputs and all registers zero,
`npcm_sgpio_set(8, 1)` on input line 8 is not rejected: it returns, having written 0x01
to the write-data byte of bank 1, which read 0x00 before. -/
theorem set_on_input_line_writes :
    (npcm_sgpio_set (gpio_8_8 0) 8 1).map
        (fun g => (g.base.writes, ioread8 g.base 1)) = some ([io_write.w8 1 0x01], 1) ∧
    ioread8 (gpio_8_8 0).base 1 = 0 := by
  decide

/-- C3 (amended): for `nout, nin <= 64` and an input offset `o` in `[nout, nout+nin)`,
`npcm_sgpio_dir_out(o, v)` returns `-EINVAL` and leaves the instance, hence every
register, as it was; `npcm_sgpio_set` itself has no status to return and checks no
direction: when `o < 64` it returns after exactly one write, to the write-data byte at
`base + o/8`. -/
theorem set_input_line_rejected_by_dir_out (gpio : npcm_sgpio) (o : Nat) (v : Int)
    (_hout : gpio.nout_sgpio ≤ 64) (_hin : gpio.nin_sgpio ≤ 64)
    (hlo : gpio.nout_sgpio ≤ o) (_hhi : o < gpio.nout_sgpio + gpio.nin_sgpio) :
    npcm_sgpio_dir_out gpio o v = some (-EINVAL, gpio) ∧
    (o < 64 → ∃ g1 byte, npcm_sgpio_set gpio o v = some g1 ∧
      g1.base.writes = gpio.base.writes ++ [io_write.w8 (o / 8) byte]) := by
  constructor
  · have : ¬ o < gpio.nout_sgpio := by omega
    simp [npcm_sgpio_dir_out, this]
  · intro h64
    exact ⟨_, _, npcm_sgpio_set_lt gpio o v h64, rfl⟩

/-- Witness of C3 (amended): 8 outputs, 8 inputs, input line 8. -/
theorem set_input_line_rejected_by_dir_out_witness :
    npcm_sgpio_dir_out (gpio_8_8 0) 8 1 =
      some (-EINVAL, gpio_8_8 0) ∧
    (8 < 64 → ∃ g1 byte, npcm_sgpio_set (gpio_8_8 0) 8 1 = some g1 ∧
      g1.base.writes =
        (gpio_8_8 0).base.writes ++ [io_write.w8 (8 / 8) byte]) :=
  set_input_line_rejected_by_dir_out (gpio_8_8 0) 8 1
    (by decide) (by decide) (by decide) (by decide)

/-- C4: for `nout, nin <= 64` and `o < nout + nin`, `npcm_sgpio_get(o)` returns a value
in {0, 1}: bit `o % 8` of the write-data byte at `base + o/8` when `o < nout`, and bit
`(o - nout) % 8` of the read-data byte at `base + 0x08 + (o - nout)/8` otherwise; it
leaves the instance, write history included, as it was given. -/
theorem get_resolves_register_and_bit (gpio : npcm_sgpio) (o : Nat)
    (hout : gpio.nout_sgpio ≤ 64) (hin : gpio.nin_sgpio ≤ 64)
    (ho : o < gpio.nout_sgpio + gpio.nin_sgpio) :
    ∃ r : Nat, npcm_sgpio_get gpio o = some ((r : Int), gpio) ∧ (r = 0 ∨ r = 1) ∧
      (o < gpio.nout_sgpio → r = ioread8 gpio.base (o / 8) / 2 ^ (o % 8) % 2) ∧
      (gpio.nout_sgpio ≤ o →
        r = ioread8 gpio.base (0x08 + (o - gpio.nout_sgpio) / 8) /
              2 ^ ((o - gpio.nout_sgpio) % 8) % 2) := by
  by_cases h : o < gpio.nout_sgpio
  · refine ⟨_, npcm_sgpio_get_out gpio o (by omega) h, ?_, fun _ => shift_and_one _ _, ?_⟩
    · rw [shift_and_one]; omega
    · intro h2; omega
  · refine ⟨_, npcm_sgpio_get_in gpio o (by omega) (by omega), ?_, ?_, fun _ => shift_and_one _ _⟩
    · rw [shift_and_one]; omega
    · intro h2; omega

/-- Witness of C4: input line 10 of a chip with 8 outputs and 8 inputs. -/
theorem get_resolves_register_and_bit_witness :
    ∃ r : Nat, npcm_sgpio_get (gpio_8_8 0xA5) 10 =
        some ((r : Int), gpio_8_8 0xA5) ∧ (r = 0 ∨ r = 1) ∧
      (10 < (gpio_8_8 0xA5).nout_sgpio →
        r = ioread8 (gpio_8_8 0xA5).base (10 / 8) / 2 ^ (10 % 8) % 2) ∧
      ((gpio_8_8 0xA5).nout_sgpio ≤ 10 →
        r = ioread8 (gpio_8_8 0xA5).base
              (0x08 + (10 - (gpio_8_8 0xA5).nout_sgpio) / 8) /
              2 ^ ((10 - (gpio_8_8 0xA5).nout_sgpio) % 8) % 2) :=
  get_resolves_register_and_bit (gpio_8_8 0xA5) 10
    (by decide) (by decide) (by decide)

/-- C5: for every `nout` and offset `o`: `npcm_sgpio_get_direction(o)` returns 0 (output)
iff `o < nout` and 1 (input) otherwise; `npcm_sgpio_dir_in(o)` returns `-EINVAL` iff
`o < nout` (and 0 otherwise); `npcm_sgpio_dir_out(o, v)` returns `-EINVAL` iff `o >= nout`;
a call that returns `-EINVAL` leaves the instance, registers included, as it was; and
`npcm_sgpio_dir_out(o, v)` on an output line returns 0 exactly when `npcm_sgpio_set(o, v)`
returns, leaving what `npcm_sgpio_set(o, v)` leaves. -/
theorem direction_fixed_by_offset (gpio : npcm_sgpio) (o : Nat) (v : Int) :
    (((npcm_sgpio_get_direction gpio o).1 = 0 ↔ o < gpio.nout_sgpio) ∧
     ((npcm_sgpio_get_direction gpio o).1 = 1 ↔ gpio.nout_sgpio ≤ o) ∧
     (npcm_sgpio_get_direction gpio o).2 = gpio) ∧
    (((npcm_sgpio_dir_in gpio o).1 = -EINVAL ↔ o < gpio.nout_sgpio) ∧
     ((npcm_sgpio_dir_in gpio o).1 = 0 ↔ gpio.nout_sgpio ≤ o) ∧
     (npcm_sgpio_dir_in gpio o).2 = gpio) ∧
    (((∃ g, npcm_sgpio_dir_out gpio o v = some (-EINVAL, g)) ↔ gpio.nout_sgpio ≤ o) ∧
     (∀ g, npcm_sgpio_dir_out gpio o v = some (-EINVAL, g) → g = gpio) ∧
     (o < gpio.nout_sgpio →
        npcm_sgpio_dir_out gpio o v = (npcm_sgpio_set gpio o v).map (fun g => (0, g))) ∧
     (o < gpio.nout_sgpio → o < 64 →
        ∃ g, npcm_sgpio_set gpio o v = some g ∧ npcm_sgpio_dir_out gpio o v = some (0, g))) := by
  by_cases h : o < gpio.nout_sgpio
  · have h2 : ¬ gpio.nout_sgpio ≤ o := by omega
    refine ⟨?_, ?_, ?_, ?_, ?_, ?_⟩
    · simp [npcm_sgpio_get_direction, h, h2]
    · simp [npcm_sgpio_dir_in, h, h2, EINVAL]
    · simp only [npcm_sgpio_dir_out, h, if_true, h2, iff_false, not_exists]
      intro g
      cases npcm_sgpio_set gpio o v <;> simp [EINVAL]
    · intro g
      simp only [npcm_sgpio_dir_out, h, if_true]
      cases npcm_sgpio_set gpio o v <;> simp [EINVAL]
    · intro _
      simp only [npcm_sgpio_dir_out, h, if_true]
      cases npcm_sgpio_set gpio o v <;> rfl
    · intro _ h64
      refine ⟨_, npcm_sgpio_set_lt gpio o v h64, ?_⟩
      simp only [npcm_sgpio_dir_out, h, if_true, npcm_sgpio_set_lt gpio o v h64]
  · have h2 : gpio.nout_sgpio ≤ o := by omega
    refine ⟨?_, ?_, ?_, ?_, ?_, ?_⟩
    · simp [npcm_sgpio_get_direction, h, h2]
    · simp [npcm_sgpio_dir_in, h, h2, EINVAL]
    · simp [npcm_sgpio_dir_out, h, h2]
    · intro g
      simp only [npcm_sgpio_dir_out, h, if_false, Option.some.injEq, Prod.mk.injEq, true_and]
      exact fun e => e.symm
    · intro h3; omega
    · intro h3; omega

/-- Witness of C5: output line 3 of a chip with 8 outputs, driven to 1. -/
theorem direction_fixed_by_offset_witness :
    (3 < (gpio_8_8 0).nout_sgpio ∧ 3 < 64) ∧
    ∃ g, npcm_sgpio_set (gpio_8_8 0) 3 1 = some g ∧
      npcm_sgpio_dir_out (gpio_8_8 0) 3 1 = some (0, g) :=
  ⟨⟨by decide, by decide⟩,
   (direction_fixed_by_offset (gpio_8_8 0) 3 1).2.2.2.2.2 (by decide) (by decide)⟩

/-! ## Shift-clock selection -/

theorem setup_clk_npcm750 (gpio : npcm_sgpio) (f : Nat) (hR : gpio.pclk < 2 ^ 32) :
    npcm_sgpio_setup_clk gpio npcm750_sgpio_pdata f =
      if f < gpio.pclk / 32 then (0, clk_selected gpio npcm750_sgpio_pdata 0)
      else if f < gpio.pclk / 8 then (0, clk_selected gpio npcm750_sgpio_pdata 1)
      else if f < gpio.pclk / 4 then (0, clk_selected gpio npcm750_sgpio_pdata 2)
      else if f < gpio.pclk / 3 then (0, clk_selected gpio npcm750_sgpio_pdata 3)
      else if f < gpio.pclk / 2 then (0, clk_selected gpio npcm750_sgpio_pdata 4)
      else if f > gpio.pclk / 2 then (0, clk_selected gpio npcm750_sgpio_pdata 5)
      else (-EINVAL, gpio) := by
  have h1 : gpio.pclk / 32 % 2 ^ 32 = gpio.pclk / 32 := by omega
  have h2 : gpio.pclk / 8 % 2 ^ 32 = gpio.pclk / 8 := by omega
  have h3 : gpio.pclk / 4 % 2 ^ 32 = gpio.pclk / 4 := by omega
  have h4 : gpio.pclk / 3 % 2 ^ 32 = gpio.pclk / 3 := by omega
  have h5 : gpio.pclk / 2 % 2 ^ 32 = gpio.pclk / 2 := by omega
  simp only [npcm_sgpio_setup_clk, npcm_sgpio_setup_clk_loop, npcm750_sgpio_pdata,
    npcm750_SFT_CLK, npcm750_CLK_SEL, clk_selected, List.getD_cons_zero, List.getD_cons_succ,
    h1, h2, h3, h4, h5]
  simp

theorem setup_clk_npcm845 (gpio : npcm_sgpio) (f : Nat) (hR : gpio.pclk < 2 ^ 32) :
    npcm_sgpio_setup_clk gpio npcm845_sgpio_pdata f =
      if f < gpio.pclk / 32 then (0, clk_selected gpio npcm845_sgpio_pdata 0)
      else if f < gpio.pclk / 16 then (0, clk_selected gpio npcm845_sgpio_pdata 1)
      else if f < gpio.pclk / 8 then (0, clk_selected gpio npcm845_sgpio_pdata 2)
      else if f < gpio.pclk / 4 then (0, clk_selected gpio npcm845_sgpio_pdata 3)
      else if f > gpio.pclk / 4 then (0, clk_selected gpio npcm845_sgpio_pdata 4)
      else (-EINVAL, gpio) := by
  have h1 : gpio.pclk / 32 % 2 ^ 32 = gpio.pclk / 32 := by omega
  have h2 : gpio.pclk / 16 % 2 ^ 32 = gpio.pclk / 16 := by omega
  have h3 : gpio.pclk / 8 % 2 ^ 32 = gpio.pclk / 8 := by omega
  have h4 : gpio.pclk / 4 % 2 ^ 32 = gpio.pclk / 4 := by omega
  simp only [npcm_sgpio_setup_clk, npcm_sgpio_setup_clk_loop, npcm845_sgpio_pdata,
    npcm845_SFT_CLK, npcm845_CLK_SEL, clk_selected, List.getD_cons_zero, List.getD_cons_succ,
    h1, h2, h3, h4]
  simp

set_option maxRecDepth 100000 in
theorem clk_byte_facts : ∀ old : Fin 256, ∀ sel : Fin 16,
    (sel.val ||| and_not_u8 old.val IOXCFG1_SFT_CLK) % 256 = (old.val &&& 0xF0) ||| sel.val ∧
    ((old.val &&& 0xF0) ||| sel.val) / 16 = old.val / 16 ∧
    ((old.val &&& 0xF0) ||| sel.val) % 256 = (old.val &&& 0xF0) ||| sel.val := by
  decide

/-- If `npcm_sgpio_setup_clk` returns the instance `clk_selected gpio clk_cfg k` with
status 0 and `CLK_SEL[k]` is a 4-bit value, entry `k` is selected. -/
theorem selects_entry_of_eq (gpio : npcm_sgpio) (clk_cfg : npcm_clk_cfg) (f k : Nat)
    (hsel : clk_cfg.CLK_SEL.getD k 0 < 16)
    (h : npcm_sgpio_setup_clk gpio clk_cfg f = (0, clk_selected gpio clk_cfg k)) :
    selects_entry gpio clk_cfg f k := by
  have hr : ioread8 gpio.base IOXCFG1 < 256 := Nat.mod_lt _ (by decide)
  obtain ⟨e1, e2, e3⟩ := clk_byte_facts ⟨_, hr⟩ ⟨_, hsel⟩
  simp only at e1 e2 e3
  have hr' : ioread8 gpio.base 0x2A = ioread8 gpio.base IOXCFG1 := rfl
  refine ⟨_, h, ?_, ?_, ?_⟩
  · simp only [clk_selected, iowrite8, e1, hr']
    rfl
  · rw [hr']; exact e2
  · intro hs
    have := ioread8_iowrite8_store gpio.base hs
      (clk_cfg.CLK_SEL.getD k 0 ||| and_not_u8 (ioread8 gpio.base IOXCFG1) IOXCFG1_SFT_CLK)
      IOXCFG1
    rw [e1] at this
    rw [hr']
    exact this
/-- C6: for each compiled-in table and every reference rate `R < 2^32`, with
`candidate[i] = R / divisor[i]`: if `candidate[k] <= f < candidate[k+1]` then
`npcm_sgpio_setup_clk` succeeds and selects entry `k`, and if `f > candidate[last]` it
succeeds and selects the last entry; in both cases the byte written to `base + 0x2A` is
`(old & 0xF0) | CLK_SEL[selected]`, with bits 4-7 of the old byte. -/
theorem setup_clk_threshold_rule (gpio : npcm_sgpio) (clk_cfg : npcm_clk_cfg) (f k : Nat)
    (hcfg : clk_cfg = npcm750_sgpio_pdata ∨ clk_cfg = npcm845_sgpio_pdata)
    (hR : gpio.pclk < 2 ^ 32) :
    (k + 1 < clk_cfg.cfg_opt → candidate clk_cfg gpio.pclk k ≤ f →
      f < candidate clk_cfg gpio.pclk (k + 1) → selects_entry gpio clk_cfg f k) ∧
    (candidate clk_cfg gpio.pclk (clk_cfg.cfg_opt - 1) < f →
      selects_entry gpio clk_cfg f (clk_cfg.cfg_opt - 1)) := by
  rcases hcfg with rfl | rfl
  · constructor
    · intro hk h1 h2
      have hk6 : k + 1 < 6 := hk
      have hk5 : k < 5 := by omega
      interval_cases k <;>
        simp only [candidate, npcm750_sgpio_pdata, npcm750_SFT_CLK, List.getD_cons_zero,
          List.getD_cons_succ] at h1 h2 <;>
        refine selects_entry_of_eq _ _ _ _ (by decide) ?_ <;>
        rw [setup_clk_npcm750 _ _ hR] <;>
        split_ifs <;> first | rfl | omega
    · intro h1
      simp only [candidate, npcm750_sgpio_pdata, npcm750_SFT_CLK, List.getD_cons_zero,
        List.getD_cons_succ, Nat.add_one_sub_one] at h1
      refine selects_entry_of_eq _ _ _ _ (by decide) ?_
      rw [setup_clk_npcm750 _ _ hR]
      split_ifs <;> first | rfl | omega
  · constructor
    · intro hk h1 h2
      have hk6 : k + 1 < 5 := hk
      have hk5 : k < 4 := by omega
      interval_cases k <;>
        simp only [candidate, npcm845_sgpio_pdata, npcm845_SFT_CLK, List.getD_cons_zero,
          List.getD_cons_succ] at h1 h2 <;>
        refine selects_entry_of_eq _ _ _ _ (by decide) ?_ <;>
        rw [setup_clk_npcm845 _ _ hR] <;>
        split_ifs <;> first | rfl | omega
    · intro h1
      simp only [candidate, npcm845_sgpio_pdata, npcm845_SFT_CLK, List.getD_cons_zero,
        List.getD_cons_succ, Nat.add_one_sub_one] at h1
      refine selects_entry_of_eq _ _ _ _ (by decide) ?_
      rw [setup_clk_npcm845 _ _ hR]
      split_ifs <;> first | rfl | omega

/-- Witness of C6: npcm750 at `R = 25000000`, `f = 50000` lies between candidate 0
(24414) and candidate 1 (781250) and selects `CLK_SEL[0] = 0x00`. -/
theorem setup_clk_threshold_rule_witness :
    (0 + 1 < npcm750_sgpio_pdata.cfg_opt ∧
      candidate npcm750_sgpio_pdata (gpio_clk 25000000).pclk 0 ≤ 50000 ∧
      50000 < candidate npcm750_sgpio_pdata (gpio_clk 25000000).pclk (0 + 1)) ∧
    npcm750_sgpio_pdata.CLK_SEL.getD 0 0 = 0x00 ∧
    selects_entry (gpio_clk 25000000) npcm750_sgpio_pdata 50000 0 :=
  ⟨⟨by decide, by decide, by decide⟩, by decide,
   (setup_clk_threshold_rule (gpio_clk 25000000) npcm750_sgpio_pdata 50000 0 (Or.inl rfl)
      (by decide)).1 (by decide) (by decide) (by decide)⟩
/-- C7 (counterexample): npcm750 at `R = 25000000` and `f = 10`: `npcm_sgpio_setup_clk`
returns 0 having written `CLK_SEL[0] = 0x00` (divisor 1024), whose frequency
`25000000 / 1024 = 24414` is above the request. -/
theorem setup_clk_below_lowest_candidate :
    (npcm_sgpio_setup_clk (gpio_clk 25000000) npcm750_sgpio_pdata 10).1 = 0 ∧
    (npcm_sgpio_setup_clk (gpio_clk 25000000) npcm750_sgpio_pdata 10).2.base.writes =
      [io_write.w8 0x2A 0x00] ∧
    ¬ candidate npcm750_sgpio_pdata 25000000 0 ≤ 10 := by
  decide

/-- C7 (amended): for each compiled-in table, every `R < 2^32` and every `f` that is at
least the lowest candidate `R / divisor[0]`, whenever `npcm_sgpio_setup_clk` succeeds the
selected entry has frequency `R / divisor <= f` and no table candidate that is `<= f` is
larger; when `f` is below the lowest candidate the code selects entry 0. -/
theorem setup_clk_rounds_down (gpio : npcm_sgpio) (clk_cfg : npcm_clk_cfg) (f : Nat)
    (hcfg : clk_cfg = npcm750_sgpio_pdata ∨ clk_cfg = npcm845_sgpio_pdata)
    (hR : gpio.pclk < 2 ^ 32) :
    (candidate clk_cfg gpio.pclk 0 ≤ f → (npcm_sgpio_setup_clk gpio clk_cfg f).1 = 0 →
      ∃ k, k < clk_cfg.cfg_opt ∧ selects_entry gpio clk_cfg f k ∧
        candidate clk_cfg gpio.pclk k ≤ f ∧
        ∀ j, j < clk_cfg.cfg_opt → candidate clk_cfg gpio.pclk j ≤ f →
          candidate clk_cfg gpio.pclk j ≤ candidate clk_cfg gpio.pclk k) ∧
    (f < candidate clk_cfg gpio.pclk 0 → selects_entry gpio clk_cfg f 0) := by
  rcases hcfg with rfl | rfl
  · constructor
    · intro hlow hok
      simp only [candidate, npcm750_sgpio_pdata, npcm750_SFT_CLK, List.getD_cons_zero] at hlow
      have hcase : f < gpio.pclk / 32 ∨ (gpio.pclk / 32 ≤ f ∧ f < gpio.pclk / 8) ∨
          (gpio.pclk / 8 ≤ f ∧ f < gpio.pclk / 4) ∨ (gpio.pclk / 4 ≤ f ∧ f < gpio.pclk / 3) ∨
          (gpio.pclk / 3 ≤ f ∧ f < gpio.pclk / 2) ∨ f = gpio.pclk / 2 ∨ gpio.pclk / 2 < f := by
        omega
      have key : ∀ k, k < 6 → npcm750_sgpio_pdata.CLK_SEL.getD k 0 < 16 →
          npcm_sgpio_setup_clk gpio npcm750_sgpio_pdata f =
            (0, clk_selected gpio npcm750_sgpio_pdata k) →
          candidate npcm750_sgpio_pdata gpio.pclk k ≤ f →
          (∀ j, j < 6 → candidate npcm750_sgpio_pdata gpio.pclk j ≤ f →
            candidate npcm750_sgpio_pdata gpio.pclk j ≤
              candidate npcm750_sgpio_pdata gpio.pclk k) →
          ∃ k, k < npcm750_sgpio_pdata.cfg_opt ∧ selects_entry gpio npcm750_sgpio_pdata f k ∧
            candidate npcm750_sgpio_pdata gpio.pclk k ≤ f ∧
            ∀ j, j < npcm750_sgpio_pdata.cfg_opt →
              candidate npcm750_sgpio_pdata gpio.pclk j ≤ f →
              candidate npcm750_sgpio_pdata gpio.pclk j ≤
                candidate npcm750_sgpio_pdata gpio.pclk k :=
        fun k hk hs he hc hm => ⟨k, hk, selects_entry_of_eq _ _ _ _ hs he, hc, hm⟩
      rcases hcase with h | h | h | h | h | h | h
      · refine key 0 (by decide) (by decide) ?_ ?_ ?_
        · rw [setup_clk_npcm750 _ _ hR, if_pos h]
        · simp only [candidate, npcm750_sgpio_pdata, npcm750_SFT_CLK, List.getD_cons_zero]
          omega
        · intro j hj hjf
          interval_cases j <;>
            simp only [candidate, npcm750_sgpio_pdata, npcm750_SFT_CLK, List.getD_cons_zero,
              List.getD_cons_succ] at hjf ⊢ <;> omega
      · refine key 1 (by decide) (by decide) ?_ ?_ ?_
        · rw [setup_clk_npcm750 _ _ hR]; split_ifs <;> first | rfl | omega
        · simp only [candidate, npcm750_sgpio_pdata, npcm750_SFT_CLK, List.getD_cons_zero,
            List.getD_cons_succ]
          omega
        · intro j hj hjf
          interval_cases j <;>
            simp only [candidate, npcm750_sgpio_pdata, npcm750_SFT_CLK, List.getD_cons_zero,
              List.getD_cons_succ] at hjf ⊢ <;> omega
      · refine key 2 (by decide) (by decide) ?_ ?_ ?_
        · rw [setup_clk_npcm750 _ _ hR]; split_ifs <;> first | rfl | omega
        · simp only [candidate, npcm750_sgpio_pdata, npcm750_SFT_CLK, List.getD_cons_zero,
            List.getD_cons_succ]
          omega
        · intro j hj hjf
          interval_cases j <;>
            simp only [candidate, npcm750_sgpio_pdata, npcm750_SFT_CLK, List.getD_cons_zero,
              List.getD_cons_succ] at hjf ⊢ <;> omega
      · refine key 3 (by decide) (by decide) ?_ ?_ ?_
        · rw [setup_clk_npcm750 _ _ hR]; split_ifs <;> first | rfl | omega
        · simp only [candidate, npcm750_sgpio_pdata, npcm750_SFT_CLK, List.getD_cons_zero,
            List.getD_cons_succ]
          omega
        · intro j hj hjf
          interval_cases j <;>
            simp only [candidate, npcm750_sgpio_pdata, npcm750_SFT_CLK, List.getD_cons_zero,
              List.getD_cons_succ] at hjf ⊢ <;> omega
      · refine key 4 (by decide) (by decide) ?_ ?_ ?_
        · rw [setup_clk_npcm750 _ _ hR]; split_ifs <;> first | rfl | omega
        · simp only [candidate, npcm750_sgpio_pdata, npcm750_SFT_CLK, List.getD_cons_zero,
            List.getD_cons_succ]
          omega
        · intro j hj hjf
          interval_cases j <;>
            simp only [candidate, npcm750_sgpio_pdata, npcm750_SFT_CLK, List.getD_cons_zero,
              List.getD_cons_succ] at hjf ⊢ <;> omega
      · exfalso
        rw [setup_clk_npcm750 _ _ hR] at hok
        split_ifs at hok <;> first | omega | simp [EINVAL] at hok
      · refine key 5 (by decide) (by decide) ?_ ?_ ?_
        · rw [setup_clk_npcm750 _ _ hR]; split_ifs <;> first | rfl | omega
        · simp only [candidate, npcm750_sgpio_pdata, npcm750_SFT_CLK, List.getD_cons_zero,
            List.getD_cons_succ]
          omega
        · intro j hj hjf
          interval_cases j <;>
            simp only [candidate, npcm750_sgpio_pdata, npcm750_SFT_CLK, List.getD_cons_zero,
              List.getD_cons_succ] at hjf ⊢ <;> omega
    · intro hlow
      simp only [candidate, npcm750_sgpio_pdata, npcm750_SFT_CLK, List.getD_cons_zero] at hlow
      refine selects_entry_of_eq _ _ _ _ (by decide) ?_
      rw [setup_clk_npcm750 _ _ hR, if_pos (by omega)]
  · constructor
    · intro hlow hok
      simp only [candidate, npcm845_sgpio_pdata, npcm845_SFT_CLK, List.getD_cons_zero] at hlow
      have hcase : f < gpio.pclk / 32 ∨ (gpio.pclk / 32 ≤ f ∧ f < gpio.pclk / 16) ∨
          (gpio.pclk / 16 ≤ f ∧ f < gpio.pclk / 8) ∨ (gpio.pclk / 8 ≤ f ∧ f < gpio.pclk / 4) ∨
          f = gpio.pclk / 4 ∨ gpio.pclk / 4 < f := by
        omega
      have key : ∀ k, k < 5 → npcm845_sgpio_pdata.CLK_SEL.getD k 0 < 16 →
          npcm_sgpio_setup_clk gpio npcm845_sgpio_pdata f =
            (0, clk_selected gpio npcm845_sgpio_pdata k) →
          candidate npcm845_sgpio_pdata gpio.pclk k ≤ f →
          (∀ j, j < 5 → candidate npcm845_sgpio_pdata gpio.pclk j ≤ f →
            candidate npcm845_sgpio_pdata gpio.pclk j ≤
              candidate npcm845_sgpio_pdata gpio.pclk k) →
          ∃ k, k < npcm845_sgpio_pdata.cfg_opt ∧ selects_entry gpio npcm845_sgpio_pdata f k ∧
            candidate npcm845_sgpio_pdata gpio.pclk k ≤ f ∧
            ∀ j, j < npcm845_sgpio_pdata.cfg_opt →
              candidate npcm845_sgpio_pdata gpio.pclk j ≤ f →
              candidate npcm845_sgpio_pdata gpio.pclk j ≤
                candidate npcm845_sgpio_pdata gpio.pclk k :=
        fun k hk hs he hc hm => ⟨k, hk, selects_entry_of_eq _ _ _ _ hs he, hc, hm⟩
      rcases hcase with h | h | h | h | h | h
      · refine key 0 (by decide) (by decide) ?_ ?_ ?_
        · rw [setup_clk_npcm845 _ _ hR, if_pos h]
        · simp only [candidate, npcm845_sgpio_pdata, npcm845_SFT_CLK, List.getD_cons_zero]
          omega
        · intro j hj hjf
          interval_cases j <;>
            simp only [candidate, npcm845_sgpio_pdata, npcm845_SFT_CLK, List.getD_cons_zero,
              List.getD_cons_succ] at hjf ⊢ <;> omega
      · refine key 1 (by decide) (by decide) ?_ ?_ ?_
        · rw [setup_clk_npcm845 _ _ hR]; split_ifs <;> first | rfl | omega
        · simp only [candidate, npcm845_sgpio_pdata, npcm845_SFT_CLK, List.getD_cons_zero,
            List.getD_cons_succ]
          omega
        · intro j hj hjf
          interval_cases j <;>
            simp only [candidate, npcm845_sgpio_pdata, npcm845_SFT_CLK, List.getD_cons_zero,
              List.getD_cons_succ] at hjf ⊢ <;> omega
      · refine key 2 (by decide) (by decide) ?_ ?_ ?_
        · rw [setup_clk_npcm845 _ _ hR]; split_ifs <;> first | rfl | omega
        · simp only [candidate, npcm845_sgpio_pdata, npcm845_SFT_CLK, List.getD_cons_zero,
            List.getD_cons_succ]
          omega
        · intro j hj hjf
          interval_cases j <;>
            simp only [candidate, npcm845_sgpio_pdata, npcm845_SFT_CLK, List.getD_cons_zero,
              List.getD_cons_succ] at hjf ⊢ <;> omega
      · refine key 3 (by decide) (by decide) ?_ ?_ ?_
        · rw [setup_clk_npcm845 _ _ hR]; split_ifs <;> first | rfl | omega
        · simp only [candidate, npcm845_sgpio_pdata, npcm845_SFT_CLK, List.getD_cons_zero,
            List.getD_cons_succ]
          omega
        · intro j hj hjf
          interval_cases j <;>
            simp only [candidate, npcm845_sgpio_pdata, npcm845_SFT_CLK, List.getD_cons_zero,
              List.getD_cons_succ] at hjf ⊢ <;> omega
      · exfalso
        rw [setup_clk_npcm845 _ _ hR] at hok
        split_ifs at hok <;> first | omega | simp [EINVAL] at hok
      · refine key 4 (by decide) (by decide) ?_ ?_ ?_
        · rw [setup_clk_npcm845 _ _ hR]; split_ifs <;> first | rfl | omega
        · simp only [candidate, npcm845_sgpio_pdata, npcm845_SFT_CLK, List.getD_cons_zero,
            List.getD_cons_succ]
          omega
        · intro j hj hjf
          interval_cases j <;>
            simp only [candidate, npcm845_sgpio_pdata, npcm845_SFT_CLK, List.getD_cons_zero,
              List.getD_cons_succ] at hjf ⊢ <;> omega
    · intro hlow
      simp only [candidate, npcm845_sgpio_pdata, npcm845_SFT_CLK, List.getD_cons_zero] at hlow
      refine selects_entry_of_eq _ _ _ _ (by decide) ?_
      rw [setup_clk_npcm845 _ _ hR, if_pos (by omega)]

/-- Witness of C7 (amended): npcm750 at `R = 25000000`, `f = 50000`. -/
theorem setup_clk_rounds_down_witness :
    (candidate npcm750_sgpio_pdata (gpio_clk 25000000).pclk 0 ≤ 50000 ∧
      (npcm_sgpio_setup_clk (gpio_clk 25000000) npcm750_sgpio_pdata 50000).1 = 0) ∧
    ∃ k, k < npcm750_sgpio_pdata.cfg_opt ∧
      selects_entry (gpio_clk 25000000) npcm750_sgpio_pdata 50000 k ∧
      candidate npcm750_sgpio_pdata (gpio_clk 25000000).pclk k ≤ 50000 ∧
      ∀ j, j < npcm750_sgpio_pdata.cfg_opt →
        candidate npcm750_sgpio_pdata (gpio_clk 25000000).pclk j ≤ 50000 →
        candidate npcm750_sgpio_pdata (gpio_clk 25000000).pclk j ≤
          candidate npcm750_sgpio_pdata (gpio_clk 25000000).pclk k :=
  ⟨⟨by decide, by decide⟩,
   (setup_clk_rounds_down (gpio_clk 25000000) npcm750_sgpio_pdata 50000 (Or.inl rfl)
      (by decide)).1 (by decide) (by decide)⟩

/-- C8 (the code at the failing input): a request equal to the highest candidate is
rejected.  npcm750 at `R = 25000000`, `f = 12500000 = R / 2`, and npcm845 at
`R = 25000000`, `f = 6250000 = R / 4`: `npcm_sgpio_setup_clk` returns `-EINVAL` and
writes nothing. -/
theorem setup_clk_fails_at_highest_candidate :
    (npcm_sgpio_setup_clk (gpio_clk 25000000) npcm750_sgpio_pdata 12500000).1 = -EINVAL ∧
    (npcm_sgpio_setup_clk (gpio_clk 25000000) npcm750_sgpio_pdata 12500000).2.base.writes = [] ∧
    (npcm_sgpio_setup_clk (gpio_clk 25000000) npcm845_sgpio_pdata 6250000).1 = -EINVAL ∧
    (npcm_sgpio_setup_clk (gpio_clk 25000000) npcm845_sgpio_pdata 6250000).2.base.writes = [] := by
  decide
/-! ## Port width and probe -/

set_option maxRecDepth 100000 in
theorem port_byte_facts : ∀ op : Fin 9, ∀ ip : Fin 9,
    (((op.val &&& 0xf) <<< 4) ||| (ip.val &&& 0xf)) % 256 = (op.val <<< 4) ||| ip.val ∧
    (op.val <<< 4) ||| ip.val = 16 * op.val + ip.val := by
  decide

/-- C9: for `nin, nout <= 64`, `npcm_sgpio_init_port` stores `in_port = ceil(nin/8)` and
`out_port = ceil(nout/8)`, issues exactly one write, of the byte
`(out_port << 4) | in_port` to the port-width register at `base + 0x2B`, and returns 0
if the byte then read from that register equals the byte written and `-EINVAL` if not. -/
theorem init_port_programs_width (gpio : npcm_sgpio)
    (hin : gpio.nin_sgpio ≤ 64) (hout : gpio.nout_sgpio ≤ 64) :
    (npcm_sgpio_init_port gpio).2.in_port = (gpio.nin_sgpio + 7) / 8 ∧
    (npcm_sgpio_init_port gpio).2.out_port = (gpio.nout_sgpio + 7) / 8 ∧
    (npcm_sgpio_init_port gpio).2.base =
      iowrite8 gpio.base ((((gpio.nout_sgpio + 7) / 8) <<< 4) ||| ((gpio.nin_sgpio + 7) / 8))
        0x2B ∧
    (npcm_sgpio_init_port gpio).2.base.writes = gpio.base.writes ++
      [io_write.w8 0x2B ((((gpio.nout_sgpio + 7) / 8) <<< 4) ||| ((gpio.nin_sgpio + 7) / 8))] ∧
    ((npcm_sgpio_init_port gpio).1 = 0 ↔
      ioread8 (npcm_sgpio_init_port gpio).2.base 0x2B =
        (((gpio.nout_sgpio + 7) / 8) <<< 4) ||| ((gpio.nin_sgpio + 7) / 8)) ∧
    ((npcm_sgpio_init_port gpio).1 ≠ 0 → (npcm_sgpio_init_port gpio).1 = -EINVAL) := by
  have hip : (if gpio.nin_sgpio % 8 > 0 then (gpio.nin_sgpio / 8 % 256 + 1) % 256
      else gpio.nin_sgpio / 8 % 256) = (gpio.nin_sgpio + 7) / 8 := by
    split <;> omega
  have hop : (if gpio.nout_sgpio % 8 > 0 then (gpio.nout_sgpio / 8 % 256 + 1) % 256
      else gpio.nout_sgpio / 8 % 256) = (gpio.nout_sgpio + 7) / 8 := by
    split <;> omega
  have hi9 : (gpio.nin_sgpio + 7) / 8 < 9 := by omega
  have ho9 : (gpio.nout_sgpio + 7) / 8 < 9 := by omega
  obtain ⟨e1, e2⟩ := port_byte_facts ⟨_, ho9⟩ ⟨_, hi9⟩
  simp only at e1 e2
  have e3 : ((((gpio.nout_sgpio + 7) / 8) <<< 4) ||| ((gpio.nin_sgpio + 7) / 8)) % 256 =
      (((gpio.nout_sgpio + 7) / 8) <<< 4) ||| ((gpio.nin_sgpio + 7) / 8) := by
    rw [e2]; omega
  simp only [npcm_sgpio_init_port, hip, hop, e1, IOXCFG2]
  refine ⟨?_, ?_, ?_, ?_, ?_, ?_⟩
  · split <;> rfl
  · split <;> rfl
  · split <;> rfl
  · split <;> simp [iowrite8, e3]
  · split
    · next h => simp [h]
    · next h => simp [h, EINVAL]
  · split
    · next h => simp
    · next h => simp

/-- Witness of C9: `nin = 10`, `nout = 3` over a zeroed store writes 0x12 to `base + 0x2B`
and succeeds. -/
theorem init_port_programs_width_witness :
    ((mk_gpio (store_mem fun _ => 0) 10 3).nin_sgpio ≤ 64 ∧
      (mk_gpio (store_mem fun _ => 0) 10 3).nout_sgpio ≤ 64) ∧
    (npcm_sgpio_init_port (mk_gpio (store_mem fun _ => 0) 10 3)).2.base.writes =
      [io_write.w8 0x2B 0x12] ∧
    (npcm_sgpio_init_port (mk_gpio (store_mem fun _ => 0) 10 3)).2.in_port = 2 ∧
    (npcm_sgpio_init_port (mk_gpio (store_mem fun _ => 0) 10 3)).2.out_port = 1 :=
  ⟨⟨by decide, by decide⟩,
   (init_port_programs_width (mk_gpio (store_mem fun _ => 0) 10 3)
      (by decide) (by decide)).2.2.2.1,
   (init_port_programs_width (mk_gpio (store_mem fun _ => 0) 10 3)
      (by decide) (by decide)).1,
   (init_port_programs_width (mk_gpio (store_mem fun _ => 0) 10 3)
      (by decide) (by decide)).2.1⟩

/-- C10 (the code at the failing input): with the input-line count property equal to 256
(and 8 output lines) the `u8` field `nin_sgpio` holds 0, the bound check passes, and
`npcm_sgpio_probe` returns 0 after programming the device; the first of its writes is
the clock-config byte.  With a count of 65 the probe does return `-EINVAL` with no
write issued. -/
theorem probe_accepts_truncated_line_count :
    (npcm_sgpio_probe (pdev_npcm750 256 8)).1 = 0 ∧
    (npcm_sgpio_probe (pdev_npcm750 256 8)).2.nin_sgpio = 0 ∧
    (npcm_sgpio_probe (pdev_npcm750 256 8)).2.base.writes.length = 20 ∧
    (npcm_sgpio_probe (pdev_npcm750 256 8)).2.base.writes.head? = some (io_write.w8 0x2A 0x00) ∧
    (npcm_sgpio_probe (pdev_npcm750 65 8)).1 = -EINVAL ∧
    (npcm_sgpio_probe (pdev_npcm750 65 8)).2.base.writes = [] := by
  decide

/-! ## Interrupt chip: auxiliary lemmas -/

theorem irqd_data_lt (gpio : npcm_sgpio) (d : irq_data) (hlo : gpio.nout_sgpio ≤ d.hwirq)
    (h : d.hwirq - gpio.nout_sgpio < 64) :
    irqd_to_npcm_sgpio_data gpio d =
      some ({ wdata_reg := (d.hwirq - gpio.nout_sgpio) / 8,
              rdata_reg := 0x08 + (d.hwirq - gpio.nout_sgpio) / 8,
              event_config := 0x10 + 2 * ((d.hwirq - gpio.nout_sgpio) / 8),
              event_status := 0x20 + (d.hwirq - gpio.nout_sgpio) / 8 },
            (d.hwirq - gpio.nout_sgpio) % 8,
            ((d.hwirq - gpio.nout_sgpio : Nat) : Int)) := by
  have e : (d.hwirq : Int) - (gpio.nout_sgpio : Int) =
      ((d.hwirq - gpio.nout_sgpio : Nat) : Int) := by
    omega
  generalize d.hwirq - gpio.nout_sgpio = n at h e
  have e1 : Int.toNat ((n : Int) % 2 ^ 32) = n := by omega
  have e2 : Int.toNat (Int.tmod (n : Int) 8 % 256) = n % 8 := by
    have : Int.tmod (n : Int) 8 = ((n % 8 : Nat) : Int) := by
      simp [Int.tmod]
    rw [this]; omega
  simp only [irqd_to_npcm_sgpio_data, e, e1, e2, to_bank_lt n h]

theorem setup_enable_eq (gpio : npcm_sgpio) (enable : Bool) :
    npcm_sgpio_setup_enable gpio enable =
      { gpio with base := iowrite8 gpio.base (enable_byte (ioread8 gpio.base 0x28) enable) 0x28 } := by
  cases enable <;> rfl

theorem iowrite8_regs_store (m : iomem) (hs : is_store m) (v a : Nat) :
    (iowrite8 m v a).regs = fun x => if x = a then v % 256 else m.regs x := by
  simp [iowrite8, hs _ _, store_respond]

theorem iowrite16_regs_store (m : iomem) (hs : is_store m) (v a : Nat) :
    (iowrite16 m v a).regs =
      fun x => if x = a then v % 65536 % 256 else if x = a + 1 then v % 65536 / 256
        else m.regs x := by
  simp [iowrite16, hs _ _, store_respond]

theorem is_store_iowrite8 (m : iomem) (hs : is_store m) (v a : Nat) :
    is_store (iowrite8 m v a) := hs

theorem is_store_iowrite16 (m : iomem) (hs : is_store m) (v a : Nat) :
    is_store (iowrite16 m v a) := hs

theorem testBit_evcfg_slot (w k i : Nat) :
    (evcfg_slot w k).testBit i = (decide (i < 2) && w.testBit (2 * k + i)) := by
  unfold evcfg_slot
  rw [show (4 : Nat) = 2 ^ 2 from rfl, Nat.testBit_mod_two_pow, ← Nat.shiftRight_eq_div_pow,
    Nat.testBit_shiftRight]

theorem testBit_small (c n i : Nat) (hc : c < 2 ^ n) (hi : n ≤ i) : c.testBit i = false :=
  Nat.testBit_lt_two_pow (lt_of_lt_of_le hc (Nat.pow_le_pow_right (by decide) hi))

theorem testBit_merge (w c s i : Nat) :
    ((w ||| (c <<< s)) % 65536).testBit i =
      (decide (i < 16) && (w.testBit i || (decide (s ≤ i) && c.testBit (i - s)))) := by
  rw [show (65536 : Nat) = 2 ^ 16 from rfl, Nat.testBit_mod_two_pow, Nat.testBit_or,
    Nat.testBit_shiftLeft]

theorem testBit_and_not_u16 (w mask i : Nat) :
    (and_not_u16 w mask).testBit i = (decide (i < 16) && w.testBit i && !mask.testBit i) := by
  unfold and_not_u16
  rw [show (65536 : Nat) = 2 ^ 16 from rfl, show (0xFFFF : Nat) = 2 ^ 16 - 1 from rfl,
    Nat.testBit_and, Nat.testBit_xor, Nat.testBit_two_pow_sub_one, Nat.testBit_mod_two_pow,
    Nat.testBit_mod_two_pow]
  by_cases h : i < 16 <;> simp [h]

theorem slot_merge_same (w c k : Nat) (hk : k < 8) :
    evcfg_slot ((w ||| (c <<< (k * 2))) % 65536) k = evcfg_slot w k ||| (c % 4) := by
  apply Nat.eq_of_testBit_eq
  intro i
  rw [testBit_evcfg_slot, Nat.testBit_or, testBit_evcfg_slot, testBit_merge,
    show (4 : Nat) = 2 ^ 2 from rfl, Nat.testBit_mod_two_pow]
  by_cases hi : i < 2
  · have h1 : 2 * k + i < 16 := by omega
    have h2 : k * 2 ≤ 2 * k + i := by omega
    have h3 : 2 * k + i - k * 2 = i := by omega
    simp [hi, h1, h2, h3]
  · simp [hi]

theorem slot_merge_other (w c k j : Nat) (hj : j < 8) (hjk : j ≠ k) (hc : c ≤ 3) :
    evcfg_slot ((w ||| (c <<< (k * 2))) % 65536) j = evcfg_slot (w % 65536) j := by
  apply Nat.eq_of_testBit_eq
  intro i
  rw [testBit_evcfg_slot, testBit_evcfg_slot, testBit_merge,
    show (65536 : Nat) = 2 ^ 16 from rfl, Nat.testBit_mod_two_pow]
  by_cases hi : i < 2
  · have h1 : 2 * j + i < 16 := by omega
    by_cases hlt : j < k
    · have h2 : ¬ k * 2 ≤ 2 * j + i := by omega
      simp [hi, h1, h2]
    · have h3 : c.testBit (2 * j + i - k * 2) = false :=
        testBit_small c 2 _ (by omega) (by omega)
      simp [hi, h1, h3]
  · simp [hi]

theorem testBit_three_shift (s i : Nat) :
    (IXOEVCFG_MASK <<< s).testBit i = (decide (s ≤ i) && decide (i - s < 2)) := by
  rw [Nat.testBit_shiftLeft, show IXOEVCFG_MASK = 2 ^ 2 - 1 from rfl,
    Nat.testBit_two_pow_sub_one]

theorem slot_mask_same (w k : Nat) :
    evcfg_slot (and_not_u16 w (IXOEVCFG_MASK <<< (k * 2))) k = 0 := by
  apply Nat.eq_of_testBit_eq
  intro i
  rw [testBit_evcfg_slot, testBit_and_not_u16, testBit_three_shift, Nat.zero_testBit]
  by_cases hi : i < 2
  · have h2 : k * 2 ≤ 2 * k + i := by omega
    have h3 : 2 * k + i - k * 2 < 2 := by omega
    simp [hi, h2, h3]
  · simp [hi]

theorem slot_mask_other (w k j : Nat) (hj : j < 8) (hjk : j ≠ k) :
    evcfg_slot (and_not_u16 w (IXOEVCFG_MASK <<< (k * 2))) j = evcfg_slot (w % 65536) j := by
  apply Nat.eq_of_testBit_eq
  intro i
  rw [testBit_evcfg_slot, testBit_evcfg_slot, testBit_and_not_u16, testBit_three_shift,
    show (65536 : Nat) = 2 ^ 16 from rfl, Nat.testBit_mod_two_pow]
  by_cases hi : i < 2
  · have h1 : 2 * j + i < 16 := by omega
    by_cases hlt : j < k
    · have h2 : ¬ k * 2 ≤ 2 * j + i := by omega
      simp [hi, h1, h2]
    · have h3 : ¬ 2 * j + i - k * 2 < 2 := by omega
      simp [hi, h1, h3]
  · simp [hi]
theorem irq_set_mask_eq (gpio : npcm_sgpio) (d : irq_data) (set : Bool)
    (hlo : gpio.nout_sgpio ≤ d.hwirq) (h : d.hwirq - gpio.nout_sgpio < 64)
    (hlen : gpio.int_type.length = 64) :
    npcm_sgpio_irq_set_mask gpio d set =
      some { gpio with
        base := status_rmw
          (evcfg_rmw gpio.base ((d.hwirq - gpio.nout_sgpio) / 8)
            (fun w =>
              if set then and_not_u16 w (IXOEVCFG_MASK <<< ((d.hwirq - gpio.nout_sgpio) % 8 * 2))
              else (w ||| (gpio.int_type.getD (d.hwirq - gpio.nout_sgpio) 0 <<<
                      ((d.hwirq - gpio.nout_sgpio) % 8 * 2))) % 65536))
          ((d.hwirq - gpio.nout_sgpio) / 8) ((d.hwirq - gpio.nout_sgpio) % 8) } := by
  have hidx : gpio.int_type[d.hwirq - gpio.nout_sgpio]? =
      some (gpio.int_type.getD (d.hwirq - gpio.nout_sgpio) 0) := by
    rw [List.getD_eq_getElem?_getD, List.getElem?_eq_getElem (by omega)]
    rfl
  simp only [npcm_sgpio_irq_set_mask, irqd_data_lt gpio d hlo h, setup_enable_eq, bank_reg,
    Int.toNat_ofNat, hidx]
  cases set <;> rfl

theorem is_store_evcfg_rmw (m : iomem) (hs : is_store m) (b : Nat) (f : Nat → Nat) :
    is_store (evcfg_rmw m b f) := hs

theorem is_store_status_rmw (m : iomem) (hs : is_store m) (b bit : Nat) :
    is_store (status_rmw m b bit) := hs

theorem evcfg_word_lt (m : iomem) (b : Nat) : evcfg_word m b < 65536 := by
  unfold evcfg_word ioread16
  omega

theorem ioread16_iowrite8_ne (m : iomem) (hs : is_store m) (v a a' : Nat)
    (h1 : a' ≠ a) (h2 : a' + 1 ≠ a) : ioread16 (iowrite8 m v a) a' = ioread16 m a' := by
  simp [ioread16, iowrite8, hs _ _, store_respond, h1, h2]

theorem ioread16_iowrite16_same (m : iomem) (hs : is_store m) (v a : Nat) :
    ioread16 (iowrite16 m v a) a = v % 65536 := by
  simp only [ioread16, iowrite16, hs _ _, store_respond]
  have hx : v % 65536 < 65536 := Nat.mod_lt _ (by decide)
  generalize v % 65536 = x at hx
  simp
  omega

theorem ioread16_iowrite16_ne (m : iomem) (hs : is_store m) (v a a' : Nat)
    (h : a' + 1 < a ∨ a + 1 < a') : ioread16 (iowrite16 m v a) a' = ioread16 m a' := by
  have h1 : a' ≠ a := by omega
  have h2 : a' ≠ a + 1 := by omega
  have h3 : a' + 1 ≠ a := by omega
  have h4 : a' ≠ a := by omega
  simp [ioread16, iowrite16, hs _ _, store_respond, h1, h2, h3, h4]

theorem evcfg_word_rmw (m : iomem) (hs : is_store m) (b b' : Nat) (f : Nat → Nat)
    (hb : b < 8) (hb' : b' < 8) :
    evcfg_word (evcfg_rmw m b f) b' =
      if b' = b then f (evcfg_word m b) % 65536 else evcfg_word m b' := by
  unfold evcfg_word evcfg_rmw
  simp only []
  have hs1 := is_store_iowrite8 m hs (enable_byte (ioread8 m 0x28) false) 0x28
  rw [ioread16_iowrite8_ne m hs _ _ _ (by omega) (by omega)]
  rw [ioread16_iowrite8_ne _ (is_store_iowrite16 _ hs1 _ _) _ _ _ (by omega) (by omega)]
  split
  · next h => subst h; rw [ioread16_iowrite16_same _ hs1]
  · next h =>
    rw [ioread16_iowrite16_ne _ hs1 _ _ _ (by omega)]
    rw [ioread16_iowrite8_ne m hs _ _ _ (by omega) (by omega)]

theorem evcfg_word_status_rmw (m : iomem) (hs : is_store m) (b b' bit : Nat)
    (hb : b < 8) (hb' : b' < 8) :
    evcfg_word (status_rmw m b bit) b' = evcfg_word m b' := by
  unfold evcfg_word status_rmw
  rw [ioread16_iowrite8_ne m hs _ _ _ (by omega) (by omega)]

theorem set_type_eq (gpio : npcm_sgpio) (d : irq_data) (t : Nat)
    (hlo : gpio.nout_sgpio ≤ d.hwirq) (h : d.hwirq - gpio.nout_sgpio < 64)
    (hlen : gpio.int_type.length = 64) :
    npcm_sgpio_set_type gpio d t =
      some (if supported_sense (t &&& 0xF) then
          (0,
           { gpio with
             int_type := gpio.int_type.set (d.hwirq - gpio.nout_sgpio) (trigger_code (t &&& 0xF))
             base := evcfg_rmw gpio.base ((d.hwirq - gpio.nout_sgpio) / 8)
               (fun w => (w ||| (trigger_code (t &&& 0xF) <<<
                  ((d.hwirq - gpio.nout_sgpio) % 8 * 2))) % 65536) },
           { d with handler := trigger_handler (t &&& 0xF) })
        else (-EINVAL, gpio, d)) := by
  have hs : t &&& 0xF < 16 := Nat.lt_succ_of_le Nat.and_le_right
  have hidx : d.hwirq - gpio.nout_sgpio < gpio.int_type.length := by omega
  simp only [npcm_sgpio_set_type, irqd_data_lt gpio d hlo h, setup_enable_eq, bank_reg,
    Int.toNat_ofNat, IRQ_TYPE_SENSE_MASK]
  obtain ⟨s, hs'⟩ : ∃ s, t &&& 15 = s := ⟨_, rfl⟩
  simp only [hs'] at hs ⊢
  interval_cases s <;>
    simp +decide [IRQ_TYPE_EDGE_BOTH, IRQ_TYPE_EDGE_RISING, IRQ_TYPE_EDGE_FALLING, IRQ_TYPE_LEVEL_HIGH,
      IRQ_TYPE_LEVEL_LOW, IXOEVCFG_BOTH, IXOEVCFG_RISING, IXOEVCFG_FALLING, supported_sense,
      trigger_code, trigger_handler, hidx, evcfg_rmw]
theorem trigger_code_le (s : Nat) : trigger_code s ≤ 3 := by
  unfold trigger_code
  split_ifs <;> omega

theorem merge_no_overflow (w c bit : Nat) (hw : w < 65536) (hc : c ≤ 3) (hbit : bit < 8) :
    (w ||| (c <<< (bit * 2))) % 65536 = w ||| (c <<< (2 * bit)) := by
  have h1 : c <<< (bit * 2) < 2 ^ 16 := by
    interval_cases bit <;> interval_cases c <;> decide
  rw [Nat.mul_comm 2 bit]
  exact Nat.mod_eq_of_lt (Nat.or_lt_two_pow hw h1)

theorem getD_set_self (l : List Nat) (n v : Nat) (h : n < l.length) :
    (l.set n v).getD n 0 = v := by
  simp [List.getD_eq_getElem?_getD, h]

/-! ## Interrupt chip -/

/-- C11: on a store, for an input line `l` in `[nout, nout+nin)` of an instance with
`nin <= 64` and the 64-entry type array, and every requested type `t` with `s = t AND 0xF`:
`npcm_sgpio_set_type` returns 0 iff `s` is one of 1, 2, 3, 4, 8.  On success the stored
code of `l - nout` becomes `trigger_code s` (0b01 rising/level-high, 0b10
falling/level-low, 0b11 both), the event-config word at `base + 0x10 + 2*((l-nout)/8)`
becomes its old value OR the code shifted to the slot of the line, so that slot becomes
its old value OR the code, and the handler becomes edge for `s` in {1,2,3} and level
for `s` in {4,8}.  Otherwise the call returns `-EINVAL` and the instance and the
descriptor are as before. -/
theorem set_type_result (gpio : npcm_sgpio) (d : irq_data) (t : Nat)
    (hs : is_store gpio.base) (hin : gpio.nin_sgpio ≤ 64) (hlen : gpio.int_type.length = 64)
    (hlo : gpio.nout_sgpio ≤ d.hwirq) (hhi : d.hwirq < gpio.nout_sgpio + gpio.nin_sgpio) :
    ∃ rc g d1, npcm_sgpio_set_type gpio d t = some (rc, g, d1) ∧
      (rc = 0 ↔ (t &&& 0xF = 1 ∨ t &&& 0xF = 2 ∨ t &&& 0xF = 3 ∨ t &&& 0xF = 4 ∨
        t &&& 0xF = 8)) ∧
      (rc = 0 →
        g.int_type = gpio.int_type.set (d.hwirq - gpio.nout_sgpio) (trigger_code (t &&& 0xF)) ∧
        g.int_type.getD (d.hwirq - gpio.nout_sgpio) 0 = trigger_code (t &&& 0xF) ∧
        evcfg_word g.base ((d.hwirq - gpio.nout_sgpio) / 8) =
          evcfg_word gpio.base ((d.hwirq - gpio.nout_sgpio) / 8) |||
            (trigger_code (t &&& 0xF) <<< (2 * ((d.hwirq - gpio.nout_sgpio) % 8))) ∧
        evcfg_slot (evcfg_word g.base ((d.hwirq - gpio.nout_sgpio) / 8))
            ((d.hwirq - gpio.nout_sgpio) % 8) =
          evcfg_slot (evcfg_word gpio.base ((d.hwirq - gpio.nout_sgpio) / 8))
            ((d.hwirq - gpio.nout_sgpio) % 8) ||| trigger_code (t &&& 0xF) ∧
        d1.handler = trigger_handler (t &&& 0xF) ∧ d1.hwirq = d.hwirq) ∧
      (rc ≠ 0 → rc = -EINVAL ∧ g = gpio ∧ d1 = d) := by
  have h64 : d.hwirq - gpio.nout_sgpio < 64 := by omega
  have hb : (d.hwirq - gpio.nout_sgpio) / 8 < 8 := by omega
  have hbit : (d.hwirq - gpio.nout_sgpio) % 8 < 8 := by omega
  rw [set_type_eq gpio d t hlo h64 hlen]
  by_cases hsup : supported_sense (t &&& 0xF) = true
  · have hdis : t &&& 0xF = 1 ∨ t &&& 0xF = 2 ∨ t &&& 0xF = 3 ∨ t &&& 0xF = 4 ∨
        t &&& 0xF = 8 := by
      simp only [supported_sense, Bool.or_eq_true, decide_eq_true_eq] at hsup
      tauto
    rw [if_pos hsup]
    refine ⟨_, _, _, rfl, ⟨fun _ => hdis, fun _ => rfl⟩, fun _ => ?_, fun h => absurd rfl h⟩
    have hcode := trigger_code_le (t &&& 0xF)
    have hword : evcfg_word (evcfg_rmw gpio.base ((d.hwirq - gpio.nout_sgpio) / 8)
        (fun w => (w ||| (trigger_code (t &&& 0xF) <<<
          ((d.hwirq - gpio.nout_sgpio) % 8 * 2))) % 65536))
          ((d.hwirq - gpio.nout_sgpio) / 8) =
        (evcfg_word gpio.base ((d.hwirq - gpio.nout_sgpio) / 8) |||
          (trigger_code (t &&& 0xF) <<< ((d.hwirq - gpio.nout_sgpio) % 8 * 2))) % 65536 := by
      rw [evcfg_word_rmw _ hs _ _ _ hb hb, if_pos rfl, Nat.mod_mod]
    refine ⟨rfl, getD_set_self _ _ _ (by omega), ?_, ?_, rfl, rfl⟩
    · dsimp only
      rw [hword, merge_no_overflow _ _ _ (evcfg_word_lt _ _) hcode hbit]
    · dsimp only
      rw [hword, slot_merge_same _ _ _ hbit,
        Nat.mod_eq_of_lt (show trigger_code (t &&& 0xF) < 4 by omega)]
  · have hdis : ¬ (t &&& 0xF = 1 ∨ t &&& 0xF = 2 ∨ t &&& 0xF = 3 ∨ t &&& 0xF = 4 ∨
        t &&& 0xF = 8) := by
      simp only [supported_sense, Bool.or_eq_true, decide_eq_true_eq] at hsup
      tauto
    rw [if_neg hsup]
    refine ⟨_, _, _, rfl, ⟨fun h => ?_, fun h => absurd h hdis⟩, fun h => ?_,
      fun _ => ⟨rfl, rfl, rfl⟩⟩
    · simp [EINVAL] at h
    · simp [EINVAL] at h

/-- Witness of C11: level-low (8) on input line 9 of a chip with 8 outputs and 8 inputs. -/
theorem set_type_result_witness :
    ∃ rc g d1, npcm_sgpio_set_type (gpio_8_8 0) (irqd 9) 8 = some (rc, g, d1) ∧
      (rc = 0 ↔ (8 &&& 0xF = 1 ∨ 8 &&& 0xF = 2 ∨ 8 &&& 0xF = 3 ∨ 8 &&& 0xF = 4 ∨
        8 &&& 0xF = 8)) ∧
      (rc = 0 →
        g.int_type = (gpio_8_8 0).int_type.set ((irqd 9).hwirq - (gpio_8_8 0).nout_sgpio)
          (trigger_code (8 &&& 0xF)) ∧
        g.int_type.getD ((irqd 9).hwirq - (gpio_8_8 0).nout_sgpio) 0 = trigger_code (8 &&& 0xF) ∧
        evcfg_word g.base (((irqd 9).hwirq - (gpio_8_8 0).nout_sgpio) / 8) =
          evcfg_word (gpio_8_8 0).base (((irqd 9).hwirq - (gpio_8_8 0).nout_sgpio) / 8) |||
            (trigger_code (8 &&& 0xF) <<< (2 * (((irqd 9).hwirq - (gpio_8_8 0).nout_sgpio) % 8))) ∧
        evcfg_slot (evcfg_word g.base (((irqd 9).hwirq - (gpio_8_8 0).nout_sgpio) / 8))
            (((irqd 9).hwirq - (gpio_8_8 0).nout_sgpio) % 8) =
          evcfg_slot (evcfg_word (gpio_8_8 0).base (((irqd 9).hwirq - (gpio_8_8 0).nout_sgpio) / 8))
            (((irqd 9).hwirq - (gpio_8_8 0).nout_sgpio) % 8) ||| trigger_code (8 &&& 0xF) ∧
        d1.handler = trigger_handler (8 &&& 0xF) ∧ d1.hwirq = (irqd 9).hwirq) ∧
      (rc ≠ 0 → rc = -EINVAL ∧ g = gpio_8_8 0 ∧ d1 = irqd 9) :=
  set_type_result (gpio_8_8 0) (irqd 9) 8 (fun _ _ => rfl) (by decide) (by decide)
    (by decide) (by decide)
theorem irq_ack_eq (gpio : npcm_sgpio) (d : irq_data)
    (hlo : gpio.nout_sgpio ≤ d.hwirq) (h : d.hwirq - gpio.nout_sgpio < 64) :
    npcm_sgpio_irq_ack gpio d =
      some { gpio with
        base := iowrite8 gpio.base (1 <<< ((d.hwirq - gpio.nout_sgpio) % 8))
          (0x20 + (d.hwirq - gpio.nout_sgpio) / 8) } := by
  simp only [npcm_sgpio_irq_ack, irqd_data_lt gpio d hlo h, bank_reg]

theorem do_call_inv (gpio g : npcm_sgpio) (c : irq_call) (hinv : irq_inv gpio)
    (hc : on_input_line gpio c) (hdo : do_call gpio c = some g) :
    irq_inv g ∧ g.nin_sgpio = gpio.nin_sgpio ∧ g.nout_sgpio = gpio.nout_sgpio := by
  obtain ⟨hs, hin, hout, hlen, hcodes⟩ := hinv
  obtain ⟨hlo, hhi⟩ := hc
  cases c with
  | set_type l t =>
    have hlo1 : gpio.nout_sgpio ≤ (irqd l).hwirq := hlo
    have h64 : (irqd l).hwirq - gpio.nout_sgpio < 64 := by
      have : l < gpio.nout_sgpio + gpio.nin_sgpio := hhi
      show l - gpio.nout_sgpio < 64
      omega
    simp only [do_call, set_type_eq gpio (irqd l) t hlo1 h64 hlen, Option.map_some',
      Option.some.injEq] at hdo
    subst hdo
    split
    · refine ⟨⟨hs, hin, hout, by simp [hlen], ?_⟩, rfl, rfl⟩
      intro x hx
      rcases List.mem_or_eq_of_mem_set hx with h1 | h1
      · exact hcodes x h1
      · rw [h1]; exact trigger_code_le _
    · exact ⟨⟨hs, hin, hout, hlen, hcodes⟩, rfl, rfl⟩
  | mask l =>
    have hlo1 : gpio.nout_sgpio ≤ (irqd l).hwirq := hlo
    have h64 : (irqd l).hwirq - gpio.nout_sgpio < 64 := by
      have : l < gpio.nout_sgpio + gpio.nin_sgpio := hhi
      show l - gpio.nout_sgpio < 64
      omega
    simp only [do_call, npcm_sgpio_irq_mask, irq_set_mask_eq gpio (irqd l) true hlo1 h64 hlen,
      Option.some.injEq] at hdo
    subst hdo
    exact ⟨⟨hs, hin, hout, hlen, hcodes⟩, rfl, rfl⟩
  | unmask l =>
    have hlo1 : gpio.nout_sgpio ≤ (irqd l).hwirq := hlo
    have h64 : (irqd l).hwirq - gpio.nout_sgpio < 64 := by
      have : l < gpio.nout_sgpio + gpio.nin_sgpio := hhi
      show l - gpio.nout_sgpio < 64
      omega
    simp only [do_call, npcm_sgpio_irq_unmask,
      irq_set_mask_eq gpio (irqd l) false hlo1 h64 hlen, Option.some.injEq] at hdo
    subst hdo
    exact ⟨⟨hs, hin, hout, hlen, hcodes⟩, rfl, rfl⟩
  | ack l =>
    have hlo1 : gpio.nout_sgpio ≤ (irqd l).hwirq := hlo
    have h64 : (irqd l).hwirq - gpio.nout_sgpio < 64 := by
      have : l < gpio.nout_sgpio + gpio.nin_sgpio := hhi
      show l - gpio.nout_sgpio < 64
      omega
    simp only [do_call, irq_ack_eq gpio (irqd l) hlo1 h64, Option.some.injEq] at hdo
    subst hdo
    exact ⟨⟨hs, hin, hout, hlen, hcodes⟩, rfl, rfl⟩

theorem run_calls_inv (calls : List irq_call) :
    ∀ (g0 g : npcm_sgpio), irq_inv g0 → (∀ c ∈ calls, on_input_line g0 c) →
      run_calls g0 calls = some g → irq_inv g := by
  induction calls with
  | nil =>
    intro g0 g h0 _ hrun
    simp only [run_calls, Option.some.injEq] at hrun
    exact hrun ▸ h0
  | cons c cs ih =>
    intro g0 g h0 hcs hrun
    simp only [run_calls] at hrun
    cases hdo : do_call g0 c with
    | none => simp [hdo] at hrun
    | some g1 =>
      simp only [hdo] at hrun
      obtain ⟨h1, e1, e2⟩ := do_call_inv g0 g1 c h0 (hcs c (List.mem_cons_self _ _)) hdo
      refine ih g1 g h1 (fun c' hc' => ?_) hrun
      have := hcs c' (List.mem_cons_of_mem _ hc')
      unfold on_input_line at this ⊢
      rw [e1, e2]
      exact this

theorem reachable_inv (gpio : npcm_sgpio) (h : reachable gpio) : irq_inv gpio := by
  obtain ⟨g0, calls, ⟨hs, hin, hout, hty⟩, hcs, hrun⟩ := h
  refine run_calls_inv calls g0 gpio ⟨hs, hin, hout, by simp [hty], ?_⟩ hcs hrun
  intro x hx
  rw [hty] at hx
  have := List.eq_of_mem_replicate hx
  omega
theorem and_not_u16_lt (w mask : Nat) : and_not_u16 w mask < 65536 :=
  lt_of_le_of_lt Nat.and_le_left (Nat.mod_lt _ (by decide))

/-- The event-config word a mask (`set = true`) or unmask (`set = false`) of the line at
bit `bit` leaves, from the word `w` read and the stored code `code`. -/
theorem irq_set_mask_words (gpio : npcm_sgpio) (d : irq_data) (set : Bool)
    (hs : is_store gpio.base)
    (hlo : gpio.nout_sgpio ≤ d.hwirq) (h : d.hwirq - gpio.nout_sgpio < 64)
    (hlen : gpio.int_type.length = 64) :
    ∃ g, npcm_sgpio_irq_set_mask gpio d set = some g ∧ g.int_type = gpio.int_type ∧
      g.nin_sgpio = gpio.nin_sgpio ∧ g.nout_sgpio = gpio.nout_sgpio ∧ is_store g.base ∧
      ∀ b, b < 8 → evcfg_word g.base b =
        if b = (d.hwirq - gpio.nout_sgpio) / 8 then
          (if set then
            and_not_u16 (evcfg_word gpio.base ((d.hwirq - gpio.nout_sgpio) / 8))
              (IXOEVCFG_MASK <<< ((d.hwirq - gpio.nout_sgpio) % 8 * 2))
          else
            (evcfg_word gpio.base ((d.hwirq - gpio.nout_sgpio) / 8) |||
              (gpio.int_type.getD (d.hwirq - gpio.nout_sgpio) 0 <<<
                ((d.hwirq - gpio.nout_sgpio) % 8 * 2))) % 65536)
        else evcfg_word gpio.base b := by
  have hb : (d.hwirq - gpio.nout_sgpio) / 8 < 8 := by omega
  refine ⟨_, irq_set_mask_eq gpio d set hlo h hlen, rfl, rfl, rfl, hs, ?_⟩
  intro b hb'
  dsimp only
  rw [evcfg_word_status_rmw _ (is_store_evcfg_rmw _ hs _ _) _ _ _ hb hb',
    evcfg_word_rmw _ hs _ _ _ hb hb']
  split
  · cases set
    · simp only [Bool.false_eq_true, if_false, Nat.mod_mod]
    · simp only [if_true]
      exact Nat.mod_eq_of_lt (and_not_u16_lt _ _)
  · rfl

theorem getD_le_three (l : List Nat) (n : Nat) (h : ∀ x ∈ l, x ≤ 3) : l.getD n 0 ≤ 3 := by
  rw [List.getD_eq_getElem?_getD]
  cases hn : l[n]? with
  | none => simp
  | some x => simpa using h x (List.getElem?_mem hn)
/-- C13: on a store, for an input line `l` in `[nout, nout+nin)` of an instance with
`nin <= 64` and the 64-entry type array, whatever the event-config registers hold,
`npcm_sgpio_irq_mask(l)` returns and leaves both bits of the slot of `l` in the
event-config word of its bank at 0. -/
theorem mask_zeroes_slot (gpio : npcm_sgpio) (d : irq_data)
    (hs : is_store gpio.base) (hin : gpio.nin_sgpio ≤ 64) (hlen : gpio.int_type.length = 64)
    (hlo : gpio.nout_sgpio ≤ d.hwirq) (hhi : d.hwirq < gpio.nout_sgpio + gpio.nin_sgpio) :
    ∃ g, npcm_sgpio_irq_mask gpio d = some g ∧
      evcfg_slot (evcfg_word g.base ((d.hwirq - gpio.nout_sgpio) / 8))
        ((d.hwirq - gpio.nout_sgpio) % 8) = 0 := by
  have h64 : d.hwirq - gpio.nout_sgpio < 64 := by omega
  obtain ⟨g, hg, -, -, -, -, hw⟩ := irq_set_mask_words gpio d true hs hlo h64 hlen
  refine ⟨g, hg, ?_⟩
  rw [hw _ (by omega), if_pos rfl, if_pos rfl, slot_mask_same]

/-- Witness of C13: input line 9 of a chip with 8 outputs and 8 inputs whose registers
all read 0xFF. -/
theorem mask_zeroes_slot_witness :
    ∃ g, npcm_sgpio_irq_mask (gpio_8_8 0xFF) (irqd 9) = some g ∧
      evcfg_slot (evcfg_word g.base (((irqd 9).hwirq - (gpio_8_8 0xFF).nout_sgpio) / 8))
        (((irqd 9).hwirq - (gpio_8_8 0xFF).nout_sgpio) % 8) = 0 :=
  mask_zeroes_slot (gpio_8_8 0xFF) (irqd 9) (fun _ _ => rfl) (by decide) (by decide)
    (by decide) (by decide)

/-- C14 (amended): on a store, for an input line `l` in `[nout, nout+nin)`, every stored
trigger-type array of 64 entries and every prior contents of the event-config registers,
after `npcm_sgpio_irq_unmask(l)` the slot of `l` is its prior contents OR the low two
bits of the stored code of `l`; it equals the stored code when the slot was 0 before
the call and the stored code is a 2-bit code. -/
theorem unmask_merges_stored_type (gpio : npcm_sgpio) (d : irq_data)
    (hs : is_store gpio.base) (hin : gpio.nin_sgpio ≤ 64) (hlen : gpio.int_type.length = 64)
    (hlo : gpio.nout_sgpio ≤ d.hwirq) (hhi : d.hwirq < gpio.nout_sgpio + gpio.nin_sgpio) :
    ∃ g, npcm_sgpio_irq_unmask gpio d = some g ∧
      evcfg_slot (evcfg_word g.base ((d.hwirq - gpio.nout_sgpio) / 8))
          ((d.hwirq - gpio.nout_sgpio) % 8) =
        evcfg_slot (evcfg_word gpio.base ((d.hwirq - gpio.nout_sgpio) / 8))
          ((d.hwirq - gpio.nout_sgpio) % 8) |||
          (gpio.int_type.getD (d.hwirq - gpio.nout_sgpio) 0 % 4) ∧
      (evcfg_slot (evcfg_word gpio.base ((d.hwirq - gpio.nout_sgpio) / 8))
          ((d.hwirq - gpio.nout_sgpio) % 8) = 0 →
        gpio.int_type.getD (d.hwirq - gpio.nout_sgpio) 0 ≤ 3 →
        evcfg_slot (evcfg_word g.base ((d.hwirq - gpio.nout_sgpio) / 8))
          ((d.hwirq - gpio.nout_sgpio) % 8) =
          gpio.int_type.getD (d.hwirq - gpio.nout_sgpio) 0) := by
  have h64 : d.hwirq - gpio.nout_sgpio < 64 := by omega
  obtain ⟨g, hg, -, -, -, -, hw⟩ := irq_set_mask_words gpio d false hs hlo h64 hlen
  have key : evcfg_slot (evcfg_word g.base ((d.hwirq - gpio.nout_sgpio) / 8))
          ((d.hwirq - gpio.nout_sgpio) % 8) =
        evcfg_slot (evcfg_word gpio.base ((d.hwirq - gpio.nout_sgpio) / 8))
          ((d.hwirq - gpio.nout_sgpio) % 8) |||
          (gpio.int_type.getD (d.hwirq - gpio.nout_sgpio) 0 % 4) := by
    rw [hw _ (by omega), if_pos rfl, if_neg (by decide), slot_merge_same _ _ _ (by omega)]
  refine ⟨g, hg, key, ?_⟩
  intro h0 h3
  rw [key, h0, Nat.zero_or, Nat.mod_eq_of_lt (by omega)]
/-- C14 (counterexample): from the zeroed chip with 8 outputs and 8 inputs, set-type
rising then set-type falling on input line 8 leaves the stored code 0b10 and the slot
0b11; `npcm_sgpio_irq_unmask(8)` then leaves the slot at 0b11, not at the stored code. -/
theorem unmask_keeps_stale_bits :
    (run_calls (gpio_8_8 0) [.set_type 8 1, .set_type 8 2, .unmask 8]).map
      (fun g => (g.int_type.getD 0 0, evcfg_slot (evcfg_word g.base 0) 0)) = some (2, 3) := by
  decide

/-- Witness of C14 (amended): input line 8 with stored code 0b01 over a slot reading 0. -/
theorem unmask_merges_stored_type_witness :
    ∃ g, npcm_sgpio_irq_unmask { gpio_8_8 0 with int_type := (gpio_8_8 0).int_type.set 0 1 }
        (irqd 8) = some g ∧
      evcfg_slot (evcfg_word g.base 0) 0 = 1 := by
  obtain ⟨g, hg, -, h⟩ := unmask_merges_stored_type
    { gpio_8_8 0 with int_type := (gpio_8_8 0).int_type.set 0 1 } (irqd 8)
    (fun _ _ => rfl) (by decide) (by decide) (by decide) (by decide)
  exact ⟨g, hg, h (by decide) (by decide)⟩

theorem merge_idem (w x : Nat) : ((w ||| x) % 65536 ||| x) % 65536 = (w ||| x) % 65536 := by
  apply Nat.eq_of_testBit_eq
  intro i
  rw [show (65536 : Nat) = 2 ^ 16 from rfl]
  simp only [Nat.testBit_mod_two_pow, Nat.testBit_or]
  cases decide (i < 16) <;> cases w.testBit i <;> cases x.testBit i <;> rfl

/-- C15: in every reachable state, for every input line `l`, `npcm_sgpio_irq_mask(l)`
followed by `npcm_sgpio_irq_unmask(l)` returns, leaves the stored trigger-type array
unchanged and leaves the slot of `l` equal to the stored code of `l`. -/
theorem mask_unmask_cycle (gpio : npcm_sgpio) (d : irq_data) (hr : reachable gpio)
    (hlo : gpio.nout_sgpio ≤ d.hwirq) (hhi : d.hwirq < gpio.nout_sgpio + gpio.nin_sgpio) :
    ∃ g1 g2, npcm_sgpio_irq_mask gpio d = some g1 ∧ npcm_sgpio_irq_unmask g1 d = some g2 ∧
      g2.int_type = gpio.int_type ∧
      evcfg_slot (evcfg_word g2.base ((d.hwirq - gpio.nout_sgpio) / 8))
          ((d.hwirq - gpio.nout_sgpio) % 8) =
        gpio.int_type.getD (d.hwirq - gpio.nout_sgpio) 0 := by
  obtain ⟨hs, hin, hout, hlen, hcodes⟩ := reachable_inv gpio hr
  have h64 : d.hwirq - gpio.nout_sgpio < 64 := by omega
  obtain ⟨g1, hg1, ht1, hn1, ho1, hs1, hw1⟩ := irq_set_mask_words gpio d true hs hlo h64 hlen
  obtain ⟨g2, hg2, ht2, -, -, -, hw2⟩ :=
    irq_set_mask_words g1 d false hs1 (by rw [ho1]; exact hlo) (by rw [ho1]; exact h64)
      (by rw [ht1]; exact hlen)
  refine ⟨g1, g2, hg1, hg2, by rw [ht2, ht1], ?_⟩
  have hb : (d.hwirq - gpio.nout_sgpio) / 8 < 8 := by omega
  have hw2' := hw2 _ hb
  rw [ho1, ht1, if_pos rfl, if_neg (by decide), hw1 _ hb, if_pos rfl, if_pos rfl] at hw2'
  rw [hw2', slot_merge_same _ _ _ (by omega), slot_mask_same, Nat.zero_or,
    Nat.mod_eq_of_lt (Nat.lt_succ_of_le (getD_le_three _ _ hcodes))]

/-- Witness of C15: the zeroed chip with 8 outputs and 8 inputs after set-type falling on
input line 9, cycled on line 9. -/
theorem mask_unmask_cycle_witness :
    ∃ g, run_calls (gpio_8_8 0) [.set_type 9 2] = some g ∧
    ∃ g1 g2, npcm_sgpio_irq_mask g (irqd 9) = some g1 ∧
      npcm_sgpio_irq_unmask g1 (irqd 9) = some g2 ∧ g2.int_type = g.int_type ∧
      evcfg_slot (evcfg_word g2.base (((irqd 9).hwirq - g.nout_sgpio) / 8))
          (((irqd 9).hwirq - g.nout_sgpio) % 8) =
        g.int_type.getD ((irqd 9).hwirq - g.nout_sgpio) 0 := by
  have hrun : ∃ g, run_calls (gpio_8_8 0) [.set_type 9 2] = some g ∧
      g.nout_sgpio = 8 ∧ g.nin_sgpio = 8 := by
    simp only [run_calls, do_call]
    rw [set_type_eq _ _ _ (by decide) (by decide) (by decide)]
    exact ⟨_, rfl, rfl, rfl⟩
  obtain ⟨g, hg, ho, hi⟩ := hrun
  refine ⟨g, hg, mask_unmask_cycle g (irqd 9)
    ⟨gpio_8_8 0, [.set_type 9 2], ⟨fun _ _ => rfl, by decide, by decide, rfl⟩, ?_, hg⟩
    (by rw [ho]; decide) (by rw [ho, hi]; decide)⟩
  intro c hc
  rw [List.mem_singleton] at hc
  subst hc
  exact ⟨by decide, by decide⟩

/-- C16: on a store, for every input line `l` in `[nout, nout+nin)`, every stored
trigger-type array of 64 entries and every register contents, the eight event-config
words after `unmask(l); unmask(l)` equal the words after a single `unmask(l)`. -/
theorem unmask_idempotent (gpio : npcm_sgpio) (d : irq_data)
    (hs : is_store gpio.base) (hin : gpio.nin_sgpio ≤ 64) (hlen : gpio.int_type.length = 64)
    (hlo : gpio.nout_sgpio ≤ d.hwirq) (hhi : d.hwirq < gpio.nout_sgpio + gpio.nin_sgpio) :
    ∃ g1 g2, npcm_sgpio_irq_unmask gpio d = some g1 ∧ npcm_sgpio_irq_unmask g1 d = some g2 ∧
      ∀ b, b < 8 → evcfg_word g2.base b = evcfg_word g1.base b := by
  have h64 : d.hwirq - gpio.nout_sgpio < 64 := by omega
  obtain ⟨g1, hg1, ht1, hn1, ho1, hs1, hw1⟩ := irq_set_mask_words gpio d false hs hlo h64 hlen
  obtain ⟨g2, hg2, -, -, -, -, hw2⟩ :=
    irq_set_mask_words g1 d false hs1 (by rw [ho1]; exact hlo) (by rw [ho1]; exact h64)
      (by rw [ht1]; exact hlen)
  refine ⟨g1, g2, hg1, hg2, ?_⟩
  intro b hb
  have hB : (d.hwirq - gpio.nout_sgpio) / 8 < 8 := by omega
  rw [hw2 b hb, ho1, ht1]
  split
  · next h =>
    subst h
    rw [if_neg (by decide), hw1 _ hB, if_pos rfl, if_neg (by decide), merge_idem]
  · rfl

/-- Witness of C16: input line 9 with stored code 0b11 over registers reading 0x55. -/
theorem unmask_idempotent_witness :
    ∃ g1 g2, npcm_sgpio_irq_unmask
        { gpio_8_8 0x55 with int_type := (gpio_8_8 0x55).int_type.set 1 3 } (irqd 9) = some g1 ∧
      npcm_sgpio_irq_unmask g1 (irqd 9) = some g2 ∧
      ∀ b, b < 8 → evcfg_word g2.base b = evcfg_word g1.base b :=
  unmask_idempotent { gpio_8_8 0x55 with int_type := (gpio_8_8 0x55).int_type.set 1 3 }
    (irqd 9) (fun _ _ => rfl) (by decide) (by decide) (by decide) (by decide)
theorem getD_set_ne (l : List Nat) (n m v : Nat) (h : n ≠ m) :
    (l.set n v).getD m 0 = l.getD m 0 := by
  simp [List.getD_eq_getElem?_getD, List.getElem?_set_ne h]

theorem evcfg_word_mod (m : iomem) (b : Nat) : evcfg_word m b % 65536 = evcfg_word m b :=
  Nat.mod_eq_of_lt (evcfg_word_lt m b)

/-- C12: in every reachable state, a further set-type, mask, unmask (or ack) call on the
input line with input-relative number `b*8 + k` returns and leaves unchanged the stored
trigger type and the 2-bit event-config slot of every other line `b*8 + j`, `j != k`,
of bank `b`, and the event-config word of every other bank. -/
theorem sibling_isolation (gpio : npcm_sgpio) (c : irq_call) (b k : Nat)
    (hr : reachable gpio) (hk : k < 8) (hline : c.line = gpio.nout_sgpio + (b * 8 + k))
    (hnin : b * 8 + k < gpio.nin_sgpio) :
    ∃ g, do_call gpio c = some g ∧
      (∀ j, j < 8 → j ≠ k →
        g.int_type.getD (b * 8 + j) 0 = gpio.int_type.getD (b * 8 + j) 0 ∧
        evcfg_slot (evcfg_word g.base b) j = evcfg_slot (evcfg_word gpio.base b) j) ∧
      (∀ b1, b1 < 8 → b1 ≠ b → evcfg_word g.base b1 = evcfg_word gpio.base b1) := by
  obtain ⟨hs, hin, hout, hlen, hcodes⟩ := reachable_inv gpio hr
  have hn : c.line - gpio.nout_sgpio = b * 8 + k := by omega
  have hlo : gpio.nout_sgpio ≤ c.line := by omega
  have h64 : c.line - gpio.nout_sgpio < 64 := by omega
  have hdiv : (b * 8 + k) / 8 = b := by omega
  have hmod : (b * 8 + k) % 8 = k := by omega
  have hb : b < 8 := by omega
  cases c with
  | set_type l t =>
    have hn1 : (irqd l).hwirq - gpio.nout_sgpio = b * 8 + k := hn
    simp only [do_call, set_type_eq gpio (irqd l) t hlo h64 hlen, Option.map_some', hn1,
      hdiv, hmod]
    split
    · refine ⟨_, rfl, fun j hj hjk => ⟨getD_set_ne _ _ _ _ (by omega), ?_⟩,
        fun b1 hb1 hne => ?_⟩
      · dsimp only
        rw [evcfg_word_rmw _ hs _ _ _ hb hb, if_pos rfl, Nat.mod_mod,
          slot_merge_other _ _ _ _ hj hjk (trigger_code_le _), evcfg_word_mod]
      · dsimp only
        rw [evcfg_word_rmw _ hs _ _ _ hb hb1, if_neg hne]
    · exact ⟨_, rfl, fun j _ _ => ⟨rfl, rfl⟩, fun _ _ _ => rfl⟩
  | mask l =>
    have hlo1 : gpio.nout_sgpio ≤ (irqd l).hwirq := hlo
    have hn1 : (irqd l).hwirq - gpio.nout_sgpio = b * 8 + k := hn
    obtain ⟨g, hg, ht, -, -, -, hw⟩ :=
      irq_set_mask_words gpio (irqd l) true hs hlo1 (by rw [hn1]; omega) hlen
    rw [hn1, hdiv, hmod] at hw
    refine ⟨g, hg, fun j hj hjk => ⟨by rw [ht], ?_⟩, fun b1 hb1 hne => ?_⟩
    · rw [hw b hb, if_pos rfl, if_pos rfl, slot_mask_other _ _ _ hj hjk, evcfg_word_mod]
    · rw [hw b1 hb1, if_neg hne]
  | unmask l =>
    have hlo1 : gpio.nout_sgpio ≤ (irqd l).hwirq := hlo
    have hn1 : (irqd l).hwirq - gpio.nout_sgpio = b * 8 + k := hn
    obtain ⟨g, hg, ht, -, -, -, hw⟩ :=
      irq_set_mask_words gpio (irqd l) false hs hlo1 (by rw [hn1]; omega) hlen
    rw [hn1, hdiv, hmod] at hw
    refine ⟨g, hg, fun j hj hjk => ⟨by rw [ht], ?_⟩, fun b1 hb1 hne => ?_⟩
    · rw [hw b hb, if_pos rfl, if_neg (by decide),
        slot_merge_other _ _ _ _ hj hjk (getD_le_three _ _ hcodes), evcfg_word_mod]
    · rw [hw b1 hb1, if_neg hne]
  | ack l =>
    have hlo1 : gpio.nout_sgpio ≤ (irqd l).hwirq := hlo
    have hn1 : (irqd l).hwirq - gpio.nout_sgpio = b * 8 + k := hn
    simp only [do_call, irq_ack_eq gpio (irqd l) hlo1 (by rw [hn1]; omega), hn1, hdiv, hmod]
    refine ⟨_, rfl, fun j _ _ => ⟨rfl, ?_⟩, fun b1 hb1 _ => ?_⟩
    · dsimp only
      unfold evcfg_word
      rw [ioread16_iowrite8_ne _ hs _ _ _ (by omega) (by omega)]
    · dsimp only
      unfold evcfg_word
      rw [ioread16_iowrite8_ne _ hs _ _ _ (by omega) (by omega)]

/-- Witness of C12: after rising on line 8, falling on line 10, rising on line 11 and
both edges on line 20 (8 outputs, 16 inputs), a further set-type falling on line 11
(bank 0, bit 3) changes the stored code of line 11 from 1 to 2 and its slot from 0b01 to
0b11, while the stored codes 1 and 2 and the slots 0b01 and 0b10 of lines 8 and 10 and
the word 0x0300 of bank 1 stay as they are. -/
theorem sibling_isolation_witness :
    (gpio_after_four_types.int_type.getD 0 0 = 1 ∧
      gpio_after_four_types.int_type.getD 2 0 = 2 ∧
      gpio_after_four_types.int_type.getD 3 0 = 1 ∧
      evcfg_slot (evcfg_word gpio_after_four_types.base 0) 0 = 1 ∧
      evcfg_slot (evcfg_word gpio_after_four_types.base 0) 2 = 2 ∧
      evcfg_slot (evcfg_word gpio_after_four_types.base 0) 3 = 1 ∧
      evcfg_word gpio_after_four_types.base 1 = 0x0300) ∧
    (do_call gpio_after_four_types (.set_type 11 2)).map
      (fun g => (g.int_type.getD 3 0, evcfg_slot (evcfg_word g.base 0) 3)) = some (2, 3) ∧
    ∃ g, do_call gpio_after_four_types (.set_type 11 2) = some g ∧
      (∀ j, j < 8 → j ≠ 3 →
        g.int_type.getD (0 * 8 + j) 0 = gpio_after_four_types.int_type.getD (0 * 8 + j) 0 ∧
        evcfg_slot (evcfg_word g.base 0) j =
          evcfg_slot (evcfg_word gpio_after_four_types.base 0) j) ∧
      (∀ b1, b1 < 8 → b1 ≠ 0 →
        evcfg_word g.base b1 = evcfg_word gpio_after_four_types.base b1) := by
  have hrun : run_calls gpio_16_8 calls_four_types = some gpio_after_four_types := by
    unfold gpio_after_four_types
    cases h : run_calls gpio_16_8 calls_four_types with
    | none =>
      have : (run_calls gpio_16_8 calls_four_types).isSome = true := by decide
      rw [h] at this
      exact absurd this (by decide)
    | some g => rfl
  have hreach : reachable gpio_after_four_types := by
    refine ⟨gpio_16_8, calls_four_types, ⟨fun _ _ => rfl, by decide, by decide, rfl⟩, ?_, hrun⟩
    intro c hc
    simp only [calls_four_types, List.mem_cons, List.mem_singleton, List.not_mem_nil,
      or_false] at hc
    rcases hc with rfl | rfl | rfl | rfl <;> exact ⟨by decide, by decide⟩
  exact ⟨by decide, by decide,
    sibling_isolation gpio_after_four_types (.set_type 11 2) 0 3 hreach (by decide)
      (by decide) (by decide)⟩

/-- C17 (the code at the failing input): on a write-1-to-clear device with the status
flags of input lines 8 and 10 pending (status byte 0x05), `npcm_sgpio_irq_mask(9)` and
`npcm_sgpio_irq_unmask(9)` end with a write of 0x07 to `base + 0x20`, the byte read OR
the bit of line 9, after which the status byte reads 0x00: the flags of lines 8 and 10
are cleared too.  `npcm_sgpio_irq_ack(9)` writes 0x02 and leaves the byte at 0x05. -/
theorem set_mask_clears_sibling_status :
    (npcm_sgpio_irq_mask (gpio_w1c 0x05) (irqd 9)).map
      (fun g => (g.base.writes.getLast?, ioread8 g.base 0x20)) =
        some (some (io_write.w8 0x20 0x07), 0x00) ∧
    (npcm_sgpio_irq_unmask (gpio_w1c 0x05) (irqd 9)).map
      (fun g => (g.base.writes.getLast?, ioread8 g.base 0x20)) =
        some (some (io_write.w8 0x20 0x07), 0x00) ∧
    (npcm_sgpio_irq_ack (gpio_w1c 0x05) (irqd 9)).map
      (fun g => (g.base.writes.getLast?, ioread8 g.base 0x20)) =
        some (some (io_write.w8 0x20 0x02), 0x05) := by
  decide

/-- C18: for an input line `l` in `[nout, nout+nin)` of an instance with `nin <= 64` and
every register contents, `npcm_sgpio_irq_ack(l)` returns having issued exactly one
write, of the byte `1 << ((l-nout) % 8)` to the event-status register at
`base + 0x20 + (l-nout)/8`; the stored trigger types are unchanged, and on a store so
are the eight event-config words. -/
theorem ack_single_write (gpio : npcm_sgpio) (d : irq_data) (hin : gpio.nin_sgpio ≤ 64)
    (hlo : gpio.nout_sgpio ≤ d.hwirq) (hhi : d.hwirq < gpio.nout_sgpio + gpio.nin_sgpio) :
    ∃ g, npcm_sgpio_irq_ack gpio d = some g ∧
      g.base.writes = gpio.base.writes ++
        [io_write.w8 (0x20 + (d.hwirq - gpio.nout_sgpio) / 8)
          (1 <<< ((d.hwirq - gpio.nout_sgpio) % 8))] ∧
      g.base.regs = gpio.base.respond gpio.base.regs
        (io_write.w8 (0x20 + (d.hwirq - gpio.nout_sgpio) / 8)
          (1 <<< ((d.hwirq - gpio.nout_sgpio) % 8))) ∧
      g.int_type = gpio.int_type ∧
      (is_store gpio.base → ∀ b, b < 8 → evcfg_word g.base b = evcfg_word gpio.base b) := by
  have h64 : d.hwirq - gpio.nout_sgpio < 64 := by omega
  have hbit : (d.hwirq - gpio.nout_sgpio) % 8 < 8 := Nat.mod_lt _ (by decide)
  have hbyte : (1 <<< ((d.hwirq - gpio.nout_sgpio) % 8)) % 256 =
      1 <<< ((d.hwirq - gpio.nout_sgpio) % 8) := by
    generalize (d.hwirq - gpio.nout_sgpio) % 8 = bit at hbit
    interval_cases bit <;> rfl
  refine ⟨_, irq_ack_eq gpio d hlo h64, ?_, ?_, rfl, ?_⟩
  · simp only [iowrite8, hbyte]
  · simp only [iowrite8, hbyte]
  · intro hs b hb
    dsimp only
    unfold evcfg_word
    rw [ioread16_iowrite8_ne _ hs _ _ _ (by omega) (by omega)]

/-- Witness of C18: ack of input line 9 on the zeroed chip with 8 outputs and 8 inputs
writes 0x02 to `base + 0x20`. -/
theorem ack_single_write_witness :
    ∃ g, npcm_sgpio_irq_ack (gpio_8_8 0) (irqd 9) = some g ∧
      g.base.writes = [io_write.w8 0x20 0x02] := by
  obtain ⟨g, hg, hw, -⟩ := ack_single_write (gpio_8_8 0) (irqd 9) (by decide) (by decide)
    (by decide)
  exact ⟨g, hg, hw⟩
theorem range_64_banks :
    List.range 64 = (List.range 8).flatMap (fun b => (List.range 8).map (fun j => b * 8 + j)) := by
  decide

theorem for_each_set_bit_bank (gpio : npcm_sgpio) (b : Nat) :
    (for_each_set_bit (ioread8 gpio.base (0x20 + b)) 8).map
        (fun j => b * 8 + gpio.nout_sgpio + j) =
      (((List.range 8).map (fun j => b * 8 + j)).filter (pending gpio.base)).map
        (fun p => p + gpio.nout_sgpio) := by
  unfold for_each_set_bit
  rw [List.filter_map, List.map_map]
  have hpred : List.filter (fun j => decide ((ioread8 gpio.base (0x20 + b) >>> j) &&& 1 = 1))
      (List.range 8) = List.filter (pending gpio.base ∘ fun j => b * 8 + j) (List.range 8) := by
    apply List.filter_congr
    intro j hj
    have hj8 : j < 8 := List.mem_range.mp hj
    have h1 : (b * 8 + j) / 8 = b := by omega
    have h2 : (b * 8 + j) % 8 = j := by omega
    simp only [Function.comp, pending, h1, h2, shift_and_one]
  rw [hpred]
  apply List.map_congr_left
  intro j _
  simp only [Function.comp]
  omega

theorem irq_handler_banks (gpio : npcm_sgpio) :
    (npcm_sgpio_irq_handler gpio).1 =
      (List.range 8).flatMap (fun b =>
        (for_each_set_bit (ioread8 gpio.base (0x20 + b)) 8).map
          (fun j => b * 8 + gpio.nout_sgpio + j)) := by
  have h8 : List.range 8 = [0, 1, 2, 3, 4, 5, 6, 7] := by decide
  unfold npcm_sgpio_irq_handler
  simp only [show npcm_sgpio_banks.length = 8 from rfl]
  rw [h8]
  simp [npcm_sgpio_banks, bank_reg, List.flatMap]

/-- C19: for every `nout` and every contents of the eight event-status bytes, one run of
`npcm_sgpio_irq_handler` leaves the instance (write history included) as it was and
delivers exactly the lines `p + nout` for the input-relative positions `p = b*8 + j` in
0..63, in ascending order of `p` (bank, then bit), whose status bit (bit `j` of the byte
at `base + 0x20 + b`) is set: a line is delivered iff its status bit is set, the list is
strictly ascending (each line once), and its length is the number of set status bits. -/
theorem irq_handler_deliveries (gpio : npcm_sgpio) :
    (npcm_sgpio_irq_handler gpio).2 = gpio ∧
    (npcm_sgpio_irq_handler gpio).1 =
      ((List.range 64).filter (pending gpio.base)).map (fun p => p + gpio.nout_sgpio) ∧
    (∀ n, n ∈ (npcm_sgpio_irq_handler gpio).1 ↔
      ∃ b j, b < 8 ∧ j < 8 ∧ ioread8 gpio.base (0x20 + b) / 2 ^ j % 2 = 1 ∧
        n = b * 8 + gpio.nout_sgpio + j) ∧
    (npcm_sgpio_irq_handler gpio).1.Pairwise (fun a b => a < b) ∧
    (npcm_sgpio_irq_handler gpio).1.length =
      ((List.range 64).filter (pending gpio.base)).length := by
  have hflat : (npcm_sgpio_irq_handler gpio).1 =
      ((List.range 64).filter (pending gpio.base)).map (fun p => p + gpio.nout_sgpio) := by
    rw [irq_handler_banks, range_64_banks, List.filter_flatMap, List.map_flatMap]
    apply List.flatMap_congr
    intro b _
    exact for_each_set_bit_bank gpio b
  refine ⟨rfl, hflat, ?_, ?_, ?_⟩
  · intro n
    rw [hflat, List.mem_map]
    constructor
    · rintro ⟨p, hp, rfl⟩
      rw [List.mem_filter, List.mem_range] at hp
      refine ⟨p / 8, p % 8, by omega, by omega, ?_, by omega⟩
      simpa [pending] using hp.2
    · rintro ⟨b, j, hb, hj, hbit, rfl⟩
      refine ⟨b * 8 + j, ?_, by omega⟩
      rw [List.mem_filter, List.mem_range]
      have h1 : (b * 8 + j) / 8 = b := by omega
      have h2 : (b * 8 + j) % 8 = j := by omega
      refine ⟨by omega, ?_⟩
      simp [pending, h1, h2, hbit]
  · rw [hflat, List.pairwise_map]
    have hr : (List.range 64).Pairwise (fun a b => a < b) := List.pairwise_lt_range 64
    exact ((List.Pairwise.sublist (List.filter_sublist _) hr)).imp (fun h => by omega)
  · rw [hflat, List.length_map]

/-- Witness of C19: with 8 outputs and the status bits of input-relative positions 3, 20
and 50 set, one run delivers the three lines 11, 28, 58, in that order. -/
theorem irq_handler_deliveries_witness :
    (npcm_sgpio_irq_handler gpio_pending_3_20_50).1 =
      ((List.range 64).filter (pending gpio_pending_3_20_50.base)).map
        (fun p => p + gpio_pending_3_20_50.nout_sgpio) ∧
    (npcm_sgpio_irq_handler gpio_pending_3_20_50).1 = [3 + 8, 20 + 8, 50 + 8] ∧
    (npcm_sgpio_irq_handler gpio_pending_3_20_50).2.base.writes = [] :=
  ⟨(irq_handler_deliveries gpio_pending_3_20_50).2.1, by decide, by decide⟩
theorem to_bank_isSome (x : Nat) : (to_bank x).isSome = true ↔ x < 64 := by
  by_cases h : x < 64
  · simp [to_bank_lt x h, h]
  · simp [to_bank_ge x (by omega), h]

/-- C20: for `nout, nin <= 64` and the 64-entry type array, the offset handed to
`to_bank` is below 64, so that the lookup is inside the eight-entry table and the call
returns, in `npcm_sgpio_get` for every offset in `[0, nout+nin)`, in `npcm_sgpio_set` for
every offset in `[0, nout)`, and in mask, unmask, ack and set-type for every line in
`[nout, nout+nin)`, where the index into the stored trigger-type array is also below 64;
`to_bank` is defined exactly on the offsets below 64. -/
theorem indices_in_range (gpio : npcm_sgpio) (v : Int) (t : Nat)
    (hout : gpio.nout_sgpio ≤ 64) (hin : gpio.nin_sgpio ≤ 64)
    (hlen : gpio.int_type.length = 64) :
    (∀ x, (to_bank x).isSome = true ↔ x < 64) ∧
    (∀ x, (to_bank x).isSome = true ↔ GPIO_BANK x < npcm_sgpio_banks.length) ∧
    (∀ o, o < gpio.nout_sgpio + gpio.nin_sgpio →
      (to_bank (if o < gpio.nout_sgpio then o else o - gpio.nout_sgpio)).isSome = true ∧
      (npcm_sgpio_get gpio o).isSome = true) ∧
    (∀ o, o < gpio.nout_sgpio →
      (to_bank o).isSome = true ∧ (npcm_sgpio_set gpio o v).isSome = true) ∧
    (∀ d : irq_data, gpio.nout_sgpio ≤ d.hwirq →
      d.hwirq < gpio.nout_sgpio + gpio.nin_sgpio →
      (∃ bank bit offset, irqd_to_npcm_sgpio_data gpio d = some (bank, bit, offset) ∧
        0 ≤ offset ∧ offset < 64 ∧ (to_bank (Int.toNat offset)).isSome = true ∧
        Int.toNat offset < gpio.int_type.length) ∧
      (npcm_sgpio_irq_mask gpio d).isSome = true ∧
      (npcm_sgpio_irq_unmask gpio d).isSome = true ∧
      (npcm_sgpio_irq_ack gpio d).isSome = true ∧
      (npcm_sgpio_set_type gpio d t).isSome = true) := by
  refine ⟨to_bank_isSome, ?_, ?_, ?_, ?_⟩
  · intro x
    rw [to_bank_isSome]
    show x < 64 ↔ x / 8 < 8
    omega
  · intro o ho
    by_cases h : o < gpio.nout_sgpio
    · rw [if_pos h, to_bank_isSome, npcm_sgpio_get_out gpio o (by omega) h]
      exact ⟨by omega, rfl⟩
    · rw [if_neg h, to_bank_isSome, npcm_sgpio_get_in gpio o (by omega) (by omega)]
      exact ⟨by omega, rfl⟩
  · intro o ho
    rw [to_bank_isSome, npcm_sgpio_set_lt gpio o v (by omega)]
    exact ⟨by omega, rfl⟩
  · intro d hlo hhi
    have h64 : d.hwirq - gpio.nout_sgpio < 64 := by omega
    refine ⟨⟨_, _, _, irqd_data_lt gpio d hlo h64, ?_, ?_, ?_, ?_⟩, ?_, ?_, ?_, ?_⟩
    · omega
    · omega
    · rw [to_bank_isSome, Int.toNat_ofNat]; exact h64
    · rw [Int.toNat_ofNat]; omega
    · unfold npcm_sgpio_irq_mask
      rw [irq_set_mask_eq gpio d true hlo h64 hlen]; rfl
    · unfold npcm_sgpio_irq_unmask
      rw [irq_set_mask_eq gpio d false hlo h64 hlen]; rfl
    · rw [irq_ack_eq gpio d hlo h64]; rfl
    · rw [set_type_eq gpio d t hlo h64 hlen]; rfl

/-- Witness of C20: the zeroed chip with 8 outputs and 8 inputs, the last input line. -/
theorem indices_in_range_witness :
    (npcm_sgpio_get (gpio_8_8 0) 15).isSome = true ∧
    (npcm_sgpio_set (gpio_8_8 0) 7 1).isSome = true ∧
    (npcm_sgpio_irq_mask (gpio_8_8 0) (irqd 15)).isSome = true ∧
    (npcm_sgpio_set_type (gpio_8_8 0) (irqd 15) 3).isSome = true :=
  ⟨((indices_in_range (gpio_8_8 0) 1 3 (by decide) (by decide) (by decide)).2.2.1 15
      (by decide)).2,
   ((indices_in_range (gpio_8_8 0) 1 3 (by decide) (by decide) (by decide)).2.2.2.1 7
      (by decide)).2,
   ((indices_in_range (gpio_8_8 0) 1 3 (by decide) (by decide) (by decide)).2.2.2.2 (irqd 15)
      (by decide) (by decide)).2.1,
   ((indices_in_range (gpio_8_8 0) 1 3 (by decide) (by decide) (by decide)).2.2.2.2 (irqd 15)
      (by decide) (by decide)).2.2.2.2⟩

end NpcmSgpio
